import Mathlib

/-!
Verification development for the SwingTrading signal-to-order pipeline.

The definitions below are a shallow embedding of the repository's core
modules, translated function by function from the Python source:

* `src/scoring_v2/indicators.py`, `percentiles.py`, `gates.py`,
  `market_regime.py`, `scoring.py`  (scoring engine)
* `src/trading/paper_engine.py`     (candidate filter and intent builder)
* `src/trading/executor.py`         (idempotent executor)
* `src/trading/reconciliation.py`   (reconciliation engine)

Modelling conventions:

* Python floats are modelled as exact rationals (`ℚ`).  The transcendental
  `math.log` is modelled as an explicit function parameter `lg : ℚ → ℚ`
  threaded through the scoring functions; no property proved here depends
  on the value of `lg`.
* A raised Python exception is modelled as `Except.error`; an expected,
  typed "null" outcome is an ordinary `Except.ok` value.
* Wall-clock-dependent external state (the market-regime observation of
  `market_regime.py`, the ambient `date.today()` of the earnings filter)
  is passed as an explicit input; this is how side channels enter a
  shallow embedding.
* Python's negative-index slices are translated with `List.drop` /
  `List.dropLast` / `takeLast`; Python's truncating `max(0, ·)` on slice
  starts coincides with `ℕ` subtraction.
* Python's stable `sorted` is modelled by `List.insertionSort`, which is
  stable for the relation used.
-/

set_option maxRecDepth 8000

namespace SwingTrading

/-- Last `k` elements of a list (Python `xs[-k:]` for `k ≤ len(xs)`). -/
def takeLast {α : Type} (k : ℕ) (xs : List α) : List α :=
  xs.drop (xs.length - k)

/-- Python `range(a, b)` as a list of naturals. -/
def pyRange (a b : ℕ) : List ℕ :=
  (List.range (b - a)).map (· + a)

/-- Python `max(xs)` over a list of rationals (0 on the empty list, which the
source never hits because every call site guards non-emptiness). -/
def pymax : List ℚ → ℚ
  | [] => 0
  | x :: xs => xs.foldl max x

/-- One daily OHLCV bar, keys `c`/`h`/`l`/`v` as in the source bar dicts. -/
structure Bar where
  c : ℚ
  h : ℚ
  l : ℚ
  v : ℚ
deriving DecidableEq

/-! ## `src/scoring_v2/indicators.py` -/

/-- Embeds `sma(values, period)`. -/
def sma (values : List ℚ) (period : ℕ) : ℚ :=
  if values.length < period then
    (if values = [] then 0 else values.sum / values.length)
  else (takeLast period values).sum / period

/-- Embeds `wilder_rsi(prices, period)`: Wilder-smoothed RSI on `prices[:-1]`. -/
def wilder_rsi (prices : List ℚ) (period : ℕ) : ℚ :=
  if prices.length < period + 2 then 50
  else
    let working := prices.dropLast
    if working.length < period + 1 then 50
    else
      let deltas := List.zipWith (fun a b => a - b) working.tail working
      let gains := deltas.map (fun d => if d > 0 then d else 0)
      let losses := deltas.map (fun d => if d < 0 then -d else 0)
      let avg_gain0 := (gains.take period).sum / period
      let avg_loss0 := (losses.take period).sum / period
      let avg_gain := (gains.drop period).foldl
        (fun a g => (a * ((period : ℚ) - 1) + g) / period) avg_gain0
      let avg_loss := (losses.drop period).foldl
        (fun a l => (a * ((period : ℚ) - 1) + l) / period) avg_loss0
      if avg_loss = 0 then (if avg_gain > 0 then 100 else 50)
      else
        let rs := avg_gain / avg_loss
        100 - 100 / (1 + rs)

/-- True range of bar `cur` against previous close, as in `wilder_atr`. -/
def true_range (cur prev : Bar) : ℚ :=
  max (cur.h - cur.l) (max |cur.h - prev.c| |cur.l - prev.c|)

/-- Embeds `wilder_atr(bars, period)`: Wilder-smoothed ATR on `bars[:-1]`. -/
def wilder_atr (bars : List Bar) (period : ℕ) : ℚ :=
  if bars.length < period + 2 then 0
  else
    let working := bars.dropLast
    if working.length < period + 1 then 0
    else
      let true_ranges := List.zipWith true_range working.tail working
      if true_ranges.length < period then 0
      else
        let atr0 := (true_ranges.take period).sum / period
        (true_ranges.drop period).foldl
          (fun a tr => (a * ((period : ℚ) - 1) + tr) / period) atr0

/-- Embeds `ema(values, period)`: list-valued EMA seeded by the SMA of the
first `period` points. -/
def ema (values : List ℚ) (period : ℕ) : List ℚ :=
  if values.length < period then values
  else
    let alpha : ℚ := 2 / ((period : ℚ) + 1)
    let e0 := (values.take period).sum / period
    ((values.drop period).foldl
      (fun (acc : List ℚ × ℚ) v =>
        let e := v * alpha + acc.2 * (1 - alpha)
        (acc.1 ++ [e], e))
      (List.replicate period e0, e0)).1

/-- Embeds `calculate_dollar_volume(price, volume)`. -/
def calculate_dollar_volume (price volume : ℚ) : ℚ := price * volume

/-- Embeds `calculate_trend_quality(sma_values, period)`: least-squares slope
(as % of mean per day) and R² of the last `period` values against
`x = 0, 1, …`; `scipy.stats.linregress` is expanded into its defining
covariance formulas.  Returns `(slope_pct, r_squared)`. -/
def calculate_trend_quality (sma_values : List ℚ) (period : ℕ) : ℚ × ℚ :=
  if sma_values.length < period ∨ period < 2 then (0, 0)
  else
    let y := takeLast period sma_values
    let n : ℚ := period
    let ybar := y.sum / n
    let syy := (y.map (fun v => (v - ybar) ^ 2)).sum
    if syy = 0 then (0, 0)
    else
      let xs := (List.range period).map (fun i => (i : ℚ))
      let xbar := xs.sum / n
      let sxx := (xs.map (fun v => (v - xbar) ^ 2)).sum
      let sxy := (List.zipWith (fun x v => (x - xbar) * (v - ybar)) xs y).sum
      let slope := sxy / sxx
      let r_squared := sxy ^ 2 / (sxx * syy)
      let avg_price := ybar
      let slope_pct := if avg_price > 0 then slope / avg_price * 100 else 0
      (slope_pct, r_squared)

/-- Result record of `calculate_indicators_t_minus_1`. -/
structure Indicators where
  sma50_t_minus_1 : ℚ
  high20_t_minus_1 : ℚ
  vol_avg_10_t_minus_1 : ℚ
  rsi_raw : ℚ
  atr_raw : ℚ
  close_t : ℚ
  volume_t : ℚ
  dollar_volume_t : ℚ
  dollar_volume_avg : ℚ
deriving DecidableEq

/-- Embeds `calculate_indicators_t_minus_1(bars)`.  The source raises
`ValueError` for fewer than 366 bars; that raise is the `Except.error`. -/
def calculate_indicators_t_minus_1 (bars : List Bar) : Except String Indicators :=
  if bars.length < 366 then .error "Insufficient bars: fewer than 366"
  else
    let n := bars.length
    let closes := bars.map (·.c)
    let highs := bars.map (·.h)
    let volumes := bars.map (·.v)
    let sma50_t_minus_1 := sma closes.dropLast 50
    let high20_t_minus_1 :=
      if highs.length > 20 then pymax (takeLast 20 highs.dropLast)
      else highs.getD (n - 2) 0
    let vol_avg_10_t_minus_1 :=
      if volumes.length ≥ 11 then (takeLast 10 volumes.dropLast).sum / 10
      else volumes.getD (n - 2) 0
    let rsi_raw := wilder_rsi closes 14
    let atr_raw := wilder_atr bars 14
    let close_t := closes.getD (n - 1) 0
    let volume_t := volumes.getD (n - 1) 0
    let dollar_volume_t := calculate_dollar_volume close_t volume_t
    let dollar_volumes_hist :=
      ((bars.drop (n - 11)).dropLast).map (fun b => calculate_dollar_volume b.c b.v)
    let dollar_volume_avg :=
      if dollar_volumes_hist = [] then dollar_volume_t
      else dollar_volumes_hist.sum / dollar_volumes_hist.length
    .ok ⟨sma50_t_minus_1, high20_t_minus_1, vol_avg_10_t_minus_1, rsi_raw,
      atr_raw, close_t, volume_t, dollar_volume_t, dollar_volume_avg⟩

/-- Result record of `calculate_raw_features` (the dict it returns). -/
structure RawFeatures where
  pullback_raw : ℚ
  trend_raw : ℚ
  rsi_raw_value : ℚ
  dollar_volume_uplift_raw : ℚ
  atr_ratio : ℚ
  close_t : ℚ
  sma50_t_minus_1 : ℚ
  rsi_value : ℚ
  atr_value : ℚ
  dollar_volume_t : ℚ
  dollar_volume_avg : ℚ
  trend_slope : ℚ
  trend_r2 : ℚ
deriving DecidableEq

/-! ## `src/scoring_v2/scoring.py` (feature construction) -/

/-- Embeds `calculate_raw_features(bars)`; `lg` models `math.log`. -/
def calculate_raw_features (lg : ℚ → ℚ) (bars : List Bar) :
    Except String RawFeatures :=
  (calculate_indicators_t_minus_1 bars).map (fun ind =>
    let n := bars.length
    let close_t := ind.close_t
    let pullback_raw0 :=
      if ind.high20_t_minus_1 > 0 then (1 - close_t / ind.high20_t_minus_1) * 100
      else 0
    let pullback_raw := max 0 (min 100 pullback_raw0)
    let sma50_history :=
      (pyRange (max 50 (n - 20)) n).map (fun i => sma ((bars.take i).map (·.c)) 50)
    let trend_quality := calculate_trend_quality sma50_history 20
    let trend_position :=
      if ind.sma50_t_minus_1 > 0 then (close_t / ind.sma50_t_minus_1 - 1) * 100
      else 0
    let trend_composite :=
      trend_position * 0.6 + trend_quality.1 * 20 * 0.3 + trend_quality.2 * 100 * 0.1
    let trend_raw := max (-50) (min 100 trend_composite)
    let base_volume_uplift :=
      if ind.dollar_volume_avg > 0 ∧ ind.dollar_volume_t > 0 then
        lg (ind.dollar_volume_t / ind.dollar_volume_avg)
      else 0
    let volumes := bars.map (·.v)
    let closes := bars.map (·.c)
    let volume_momentum :=
      if 5 ≤ n then
        let recent_volumes := takeLast 3 volumes
        let older_volumes := (volumes.drop (n - 6)).take ((n - 3) - (n - 6))
        let recent_avg := recent_volumes.sum / recent_volumes.length
        let older_avg := older_volumes.sum / older_volumes.length
        if older_avg > 0 then lg (recent_avg / older_avg) else 0
      else 0
    let institutional_flow :=
      if 10 ≤ n then
        let large_volume_days :=
          ((takeLast 10 volumes).filter
            (fun v => v > ind.vol_avg_10_t_minus_1 * 1.5)).length
        ((large_volume_days : ℚ) / 10) * 2 - 1
      else 0
    let volume_price_relationship :=
      if 5 ≤ n then
        let upDown := (pyRange (n - 5) n).foldl
          (fun (acc : ℚ × ℚ) j =>
            if 1 ≤ j then
              let price_change := closes.getD j 0 - closes.getD (j - 1) 0
              if price_change > 0 then (acc.1 + volumes.getD j 0, acc.2)
              else if price_change < 0 then (acc.1, acc.2 + volumes.getD j 0)
              else acc
            else acc) (0, 0)
        let total_volume := upDown.1 + upDown.2
        if total_volume > 0 then (upDown.1 / total_volume - 0.5) * 2 else 0
      else 0
    let dollar_volume_uplift_raw :=
      base_volume_uplift * 0.5 + volume_momentum * 0.25 +
        institutional_flow * 0.15 + volume_price_relationship * 0.10
    let atr_ratio := if close_t > 0 then ind.atr_raw / close_t else 0
    { pullback_raw := pullback_raw
      trend_raw := trend_raw
      rsi_raw_value := ind.rsi_raw
      dollar_volume_uplift_raw := dollar_volume_uplift_raw
      atr_ratio := atr_ratio
      close_t := close_t
      sma50_t_minus_1 := ind.sma50_t_minus_1
      rsi_value := ind.rsi_raw
      atr_value := ind.atr_raw
      dollar_volume_t := ind.dollar_volume_t
      dollar_volume_avg := ind.dollar_volume_avg
      trend_slope := trend_quality.1
      trend_r2 := trend_quality.2 })

/-- Embeds `build_historical_features(bars)`: the four rolling raw-feature
series (pullback, trend, rsi, dollar-volume uplift), with the bare
`except:` of the source mapped to the neutral tuple `(10, 0, 50, 0)`. -/
def build_historical_features (lg : ℚ → ℚ) (bars : List Bar) :
    List ℚ × List ℚ × List ℚ × List ℚ :=
  let rows := (pyRange 60 bars.length).map (fun i =>
    match calculate_raw_features lg (bars.take (i + 1)) with
    | .ok f => (f.pullback_raw, f.trend_raw, f.rsi_raw_value, f.dollar_volume_uplift_raw)
    | .error _ => ((10 : ℚ), (0 : ℚ), (50 : ℚ), (0 : ℚ)))
  (rows.map (·.1), rows.map (·.2.1), rows.map (·.2.2.1), rows.map (·.2.2.2))

/-! ## `src/scoring_v2/percentiles.py` -/

/-- Embeds `percentile(values, pcts)`: linear-interpolation percentiles of a
dataset (Python's `sorted` is ascending and stable). -/
def percentile (values : List ℚ) (pcts : List ℚ) : List ℚ :=
  if values = [] then pcts.map (fun _ => 0)
  else
    let sorted_values := values.insertionSort (· ≤ ·)
    let n := sorted_values.length
    pcts.map (fun pct =>
      if pct ≤ 0 then sorted_values.getD 0 0
      else if pct ≥ 100 then sorted_values.getD (n - 1) 0
      else
        let pos := pct / 100 * ((n : ℚ) - 1)
        let lower := ⌊pos⌋.toNat
        let upper := min (lower + 1) (n - 1)
        let weight := pos - lower
        sorted_values.getD lower 0 * (1 - weight) + sorted_values.getD upper 0 * weight)

/-- Embeds `winsorize(values, lower_pct, upper_pct)`. -/
def winsorize (values : List ℚ) (lower_pct upper_pct : ℚ) : List ℚ :=
  if values = [] then []
  else
    let cutoffs := percentile values [lower_pct, upper_pct]
    let lower_cutoff := cutoffs.getD 0 0
    let upper_cutoff := cutoffs.getD 1 0
    values.map (fun v => max lower_cutoff (min upper_cutoff v))

/-- Embeds `calculate_percentile_rank(values_252, current_value)`:
winsorize at [1, 99], then inclusive-≤ counting. -/
def calculate_percentile_rank (values_252 : List ℚ) (current_value : ℚ) : ℚ :=
  if values_252 = [] then 50
  else
    let winsorized := winsorize values_252 1 99
    let count := (winsorized.filter (fun v => v ≤ current_value)).length
    100 * count / winsorized.length

/-- Embeds `build_percentile_series(historical_values, lookback)`. -/
def build_percentile_series (historical_values : List ℚ) (lookback : ℕ) : List ℚ :=
  if historical_values.length < lookback + 1 then []
  else
    (pyRange lookback historical_values.length).map (fun i =>
      calculate_percentile_rank
        ((historical_values.drop (i - lookback)).take lookback)
        (historical_values.getD i 0))

/-! ## `src/scoring_v2/gates.py` -/

/-- Embeds `evaluate_gates(atr_ratio, close_t, sma50_t_minus_1, pullback_pct)`:
three closed-interval gates in fixed order, first failure wins. -/
def evaluate_gates (atr_ratio close_t sma50_t_minus_1 pullback_pct : ℚ) :
    Bool × Option String :=
  if ¬(0.005 ≤ atr_ratio ∧ atr_ratio ≤ 0.08) then (false, some "gate_atr_ratio")
  else if ¬(close_t ≥ sma50_t_minus_1 * 1.0) then (false, some "gate_trend_filter")
  else
    let pullback_decimal := pullback_pct / 100
    if ¬(0.05 ≤ pullback_decimal ∧ pullback_decimal ≤ 0.20) then
      (false, some "gate_pullback_band")
    else (true, none)

/-- Embeds `validate_score_range(score)` with the `[30, 75]` band. -/
def validate_score_range (score : ℚ) : Bool × Option String :=
  if score < 30 then (false, some "score_too_low")
  else if score > 75 then (false, some "score_too_high")
  else (true, none)

/-- Embeds `validate_dollar_volume(dollar_volume)` with the $20M floor. -/
def validate_dollar_volume (dollar_volume : ℚ) : Bool × Option String :=
  if dollar_volume < 20000000 then (false, some "insufficient_dollar_volume")
  else (true, none)

/-! ## `src/scoring_v2/market_regime.py`

The regime observation itself is wall-clock and network dependent
(`get_market_regime` keys its cache on `datetime.now()` and fetches SPY/VIX
bars over HTTP), so it enters the embedding as an explicit input value of
type `Regime`; the two pure functions consuming it are embedded below. -/

/-- A market-regime observation as produced by `get_market_regime` (the
fields of the regime dict that survive `_calculate_regime_indicators`). -/
structure Regime where
  trend_regime : String
  volatility_regime : String
  market_strength : ℚ
  risk_on : Bool
  confidence : ℚ
deriving DecidableEq

/-- Component weights dict `{pullback, volume, trend, rsi}`. -/
structure Weights where
  pullback : ℚ
  volume : ℚ
  trend : ℚ
  rsi : ℚ
deriving DecidableEq

/-- Embeds `get_regime_adjusted_weights(base_weights, regime)`. -/
def get_regime_adjusted_weights (base : Weights) (regime : Regime) : Weights :=
  let adjusted :=
    if regime.trend_regime = "bear" then
      { trend := min 0.35 (base.trend * 1.5)
        volume := min 0.40 (base.volume * 1.2)
        pullback := max 0.15 (base.pullback * 0.8)
        rsi := max 0.10 (base.rsi * 0.8) }
    else if regime.volatility_regime = "high" ∨ regime.volatility_regime = "extreme" then
      { pullback := min 0.45 (base.pullback * 1.3)
        rsi := min 0.25 (base.rsi * 1.5)
        trend := max 0.15 (base.trend * 0.8)
        volume := max 0.15 (base.volume * 0.8) }
    else base
  let total := adjusted.pullback + adjusted.volume + adjusted.trend + adjusted.rsi
  if total > 0 then
    ⟨adjusted.pullback / total, adjusted.volume / total,
      adjusted.trend / total, adjusted.rsi / total⟩
  else adjusted

/-- Embeds `should_trade_in_regime(regime)`. -/
def should_trade_in_regime (regime : Regime) : Bool × String :=
  if regime.volatility_regime = "extreme" then (false, "extreme_volatility")
  else if regime.trend_regime = "bear" ∧ regime.volatility_regime = "high" then
    (false, "bear_high_vol")
  else if regime.trend_regime = "bear" then (true, "bear_selective")
  else (true, "normal_trading")

/-! ## `src/scoring_v2/scoring.py` (orchestrator) -/

/-- Embeds `MIN_BARS_REQUIRED` (the scoring gate, reduced to 250 in the
source while `calculate_indicators_t_minus_1` still demands 366). -/
def MIN_BARS_REQUIRED : ℕ := 250

/-- Python `round(x, 2)` (round-half-to-even on the exact value). -/
def round2 (x : ℚ) : ℚ :=
  let scaled := x * 100
  let fl := ⌊scaled⌋
  let rem := scaled - fl
  (if rem < 1/2 then (fl : ℚ)
   else if rem > 1/2 then (fl : ℚ) + 1
   else if fl % 2 = 0 then (fl : ℚ) else (fl : ℚ) + 1) / 100

/-- The base weights dict of `calculate_score_v2` step 7. -/
def base_weights : Weights := ⟨0.35, 0.30, 0.20, 0.15⟩

/-- Smoothing step of `calculate_score_v2` step 5 for one component:
3-period EMA over the component's percentile series, falling back to the
step-4 percentile when the series is too short. -/
def smoothed_component (history : List ℚ) (fallback : ℚ) : ℚ :=
  let pct_series := build_percentile_series history 252
  if 3 ≤ pct_series.length then
    match (ema pct_series 3).getLast? with
    | some v => v
    | none => fallback
  else fallback

/-- Step-4 percentile of `calculate_score_v2` for one component: rank the
current raw value against the last 252 history values before it. -/
def step4_percentile (history : List ℚ) (current : ℚ) : ℚ :=
  if 252 < history.length then
    calculate_percentile_rank ((history.drop (history.length - 253)).take 252) current
  else 50

/-- Embeds `calculate_score_v2(bars)`: `(score, gate_failure_reason)`, with a
raised exception as `Except.error`.  `lg` models `math.log`; `regime` is the
market-regime observation `market_regime_detector.get_market_regime()`
returns for this invocation (a wall-clock/network-dependent input).  The
diagnostics dict of the source carries no decision content and is omitted. -/
def calculate_score_v2 (lg : ℚ → ℚ) (regime : Regime) (bars : List Bar) :
    Except String (Option ℚ × Option String) :=
  if bars.length < MIN_BARS_REQUIRED then .ok (none, some "insufficient_history")
  else
    match calculate_raw_features lg bars with
    | .error e => .error e
    | .ok features =>
      if features.dollar_volume_t < 20000000 then
        .ok (none, some "insufficient_liquidity")
      else
        let history := build_historical_features lg bars
        let sp_pullback := smoothed_component history.1
          (step4_percentile history.1 features.pullback_raw)
        let sp_trend := smoothed_component history.2.1
          (step4_percentile history.2.1 features.trend_raw)
        let sp_rsi := smoothed_component history.2.2.1
          (step4_percentile history.2.2.1 features.rsi_raw_value)
        let sp_volume := smoothed_component history.2.2.2
          (step4_percentile history.2.2.2 features.dollar_volume_uplift_raw)
        let gates := evaluate_gates features.atr_ratio features.close_t
          features.sma50_t_minus_1 features.pullback_raw
        if ¬ gates.1 then .ok (none, gates.2)
        else
          let st := should_trade_in_regime regime
          if ¬ st.1 ∧ st.2 = "extreme_volatility" then
            .ok (none, some "extreme_volatility")
          else
            let adjusted_weights := get_regime_adjusted_weights base_weights regime
            let composite :=
              sp_pullback * adjusted_weights.pullback +
              sp_volume * adjusted_weights.volume +
              sp_trend * adjusted_weights.trend +
              sp_rsi * adjusted_weights.rsi
            let score := round2 composite
            let dvv := validate_dollar_volume features.dollar_volume_t
            if ¬ dvv.1 then .ok (none, dvv.2)
            else
              let srv := validate_score_range score
              if ¬ srv.1 then .ok (none, srv.2)
              else .ok (some score, none)

/-! ## `src/trading/paper_engine.py` -/

/-- Entry-leg dict built by `construct_entry_leg` (and read back through
`.get` by the executor, hence the `Option` fields). -/
structure EntryLeg where
  type : String
  time_in_force : String
  limit_price : Option ℚ
  open_only : Option Bool
deriving DecidableEq

/-- Bracket dict `{stop_loss, take_profit}`. -/
structure Bracket where
  stop_loss : ℚ
  take_profit : ℚ
deriving DecidableEq

/-- Intent `meta` dict (fields read back through `.get` are `Option`s). -/
structure Meta where
  score : ℚ
  atr : ℚ
  rsi14 : ℚ
  sma50 : Option ℚ
  close : Option ℚ
  reason : String
deriving DecidableEq

/-- An order intent as built by `build_order_intents`. -/
structure Intent where
  run_id : String
  symbol : String
  side : String
  qty : ℤ
  entry : EntryLeg
  bracket : Bracket
  meta : Meta
  client_order_id : String
deriving DecidableEq

/-- One row of the scan DataFrame consumed by `build_order_intents`
(absent columns / NaN cells are `none`). -/
structure ScanRow where
  symbol : String
  score : ℚ
  close : Option ℚ
  atr20 : Option ℚ
  rsi14 : Option ℚ
  sma50 : Option ℚ
  volume_ratio : Option ℚ
deriving DecidableEq

/-- Exclusion config consumed by `filter_candidates`; `earnings_map` maps a
symbol to an earnings date (dates are day numbers). -/
structure Exclusions where
  leverage_etf : Bool
  leverage_patterns : List String
  earnings_map : List (String × ℤ)
  earnings_within_days : Option ℤ
deriving DecidableEq

/-- Embeds `generate_run_id(as_of)` (`as_of` is the ISO date string). -/
def generate_run_id (as_of : String) : String := as_of ++ "_scan"

/-- Embeds `filter_candidates(scan_df, min_score, exclusions)`; `today` is
the ambient `date.today()` of the earnings check, passed explicitly. -/
def filter_candidates (scan_df : List ScanRow) (min_score : ℚ)
    (exclusions : Exclusions) (today : ℤ) : List ScanRow :=
  if scan_df = [] then scan_df
  else
    let filtered := scan_df.filter (fun row => min_score ≤ row.score)
    let filtered :=
      if exclusions.leverage_etf then
        if exclusions.leverage_patterns = [] then filtered
        else filtered.filter (fun row => ¬ row.symbol ∈ exclusions.leverage_patterns)
      else filtered
    if exclusions.earnings_map ≠ [] ∧ exclusions.earnings_within_days.getD 0 ≠ 0 then
      let days_threshold := exclusions.earnings_within_days.getD 0
      filtered.filter (fun row =>
        ! (match exclusions.earnings_map.find? (fun p => p.1 = row.symbol) with
          | some p => decide (0 ≤ p.2 - today ∧ p.2 - today ≤ days_threshold)
          | none => false))
    else filtered

/-- Embeds `apply_price_guards(df, min_price, allow_pennies)` (a NaN
`close` cell compares false in pandas, hence is dropped). -/
def apply_price_guards (df : List ScanRow) (min_price : ℚ)
    (allow_pennies : Bool) : List ScanRow :=
  if df = [] ∨ allow_pennies then df
  else df.filter (fun row =>
    match row.close with
    | some c => min_price ≤ c
    | none => false)

/-- Embeds `compute_position_size(...)`: risk-based share count, then the
minimum-notional and maximum-percent-of-equity constraints. -/
def compute_position_size (equity entry_price atr stop_mult risk_pct
    min_notional max_pos_pct : ℚ) : ℤ :=
  let risk_per_share := atr * stop_mult
  let shares0 : ℚ :=
    if risk_per_share > 0 then equity * (risk_pct / 100) / risk_per_share else 0
  let shares : ℤ := ⌊shares0⌋
  if shares < 1 then 0
  else
    let position_value := (shares : ℚ) * entry_price
    if position_value < min_notional then 0
    else
      let max_position_value := equity * (max_pos_pct / 100)
      if position_value > max_position_value then
        let reduced : ℤ := ⌊max_position_value / entry_price⌋
        if (reduced : ℚ) * entry_price < min_notional then 0 else reduced
      else shares

/-- Embeds `compute_safe_position_size(...)`: `compute_position_size` with
`max_pos_pct` given as a decimal, plus the low-price share caps. -/
def compute_safe_position_size (equity price atr stop_mult risk_pct
    min_notional max_pos_pct : ℚ) : ℤ :=
  let shares := compute_position_size equity price atr stop_mult risk_pct
    min_notional (max_pos_pct * 100)
  if price < 5 ∧ shares > 5000 then 5000
  else if price < 1 ∧ shares > 2000 then 2000
  else shares

/-- Embeds `construct_entry_leg(style, ref_price, buffer_bps)`. -/
def construct_entry_leg (style : String) (ref_price : ℚ) (buffer_bps : ℤ) :
    EntryLeg :=
  if style = "open" then
    let buffer_mult := 1 + (buffer_bps : ℚ) / 10000
    let limit_price := round2 (ref_price * buffer_mult)
    ⟨"limit", "opg", some limit_price, some true⟩
  else ⟨"market", "day", none, some false⟩

/-- Embeds `construct_bracket_levels(entry_price, atr, stop_mult, target_mult)`. -/
def construct_bracket_levels (entry_price atr stop_mult target_mult : ℚ) :
    ℚ × ℚ :=
  let stop_loss := round2 (entry_price - atr * stop_mult)
  let take_profit := round2 (entry_price + atr * target_mult)
  (max 0.01 stop_loss, take_profit)

/-- Notional reference price of an intent in `enforce_portfolio_caps`
(Python `entry.get('limit_price') or meta.get('close', 0)`: a `None` or
zero limit price falls back to the meta close). -/
def caps_price (intent : Intent) : ℚ :=
  match intent.entry.limit_price with
  | some p => if p = 0 then intent.meta.close.getD 0 else p
  | none => intent.meta.close.getD 0

/-- Selection loop of `enforce_portfolio_caps`: `break` once `max_symbols`
positions are kept; `continue` past any intent that would push the running
exposure over the cap. -/
def caps_select : List Intent → List Intent → ℚ → ℚ → ℕ → List Intent
  | [], selected, _, _, _ => selected
  | intent :: rest, selected, total_exposure, max_exposure, max_symbols =>
    if max_symbols ≤ selected.length then selected
    else
      let position_value := (intent.qty : ℚ) * caps_price intent
      if total_exposure + position_value > max_exposure then
        caps_select rest selected total_exposure max_exposure max_symbols
      else
        caps_select rest (selected ++ [intent]) (total_exposure + position_value)
          max_exposure max_symbols

/-- The stable descending score sort of `enforce_portfolio_caps`
(`sorted(key=score, reverse=True)` is stable). -/
def sort_by_score_desc (intents : List Intent) : List Intent :=
  intents.insertionSort (fun a b => b.meta.score ≤ a.meta.score)

/-- Embeds `enforce_portfolio_caps(intents, account_equity, max_symbols,
max_gross_exposure_pct)`. -/
def enforce_portfolio_caps (intents : List Intent) (account_equity : ℚ)
    (max_symbols : ℕ) (max_gross_exposure_pct : ℚ) : List Intent :=
  if intents = [] then intents
  else
    caps_select (sort_by_score_desc intents) [] 0
      (account_equity * (max_gross_exposure_pct / 100)) max_symbols

/-- Embeds `derive_candidate_reason(row)`. -/
def derive_candidate_reason (row : ScanRow) : String :=
  let reasons : List String :=
    (if 80 ≤ row.score then ["high-score"]
     else if 65 ≤ row.score then ["qualified-score"] else []) ++
    (let rsi := row.rsi14.getD 50
     if rsi < 30 then ["oversold"] else if rsi < 50 then ["pullback"] else []) ++
    (match row.sma50, row.close with
     | some s, some c => if s < c then ["above-trend"] else []
     | _, _ => []) ++
    (match row.volume_ratio with
     | some vr => if 1.5 < vr then ["high-volume"] else []
     | none => [])
  if reasons = [] then "score-qualified" else String.intercalate " " reasons

/-- Configuration consumed by `build_order_intents`, with the `.get`
defaults of the source already applied to the optional keys. -/
structure PaperConfig where
  min_score : ℚ
  max_symbols : ℕ
  sort_by : String
  min_price : ℚ
  allow_penny_stocks : Bool
  risk_per_trade_pct : ℚ
  min_notional : ℚ
  max_pos_pct_of_equity : ℚ
  max_gross_exposure_pct : ℚ
  stop_atr_mult : ℚ
  target_atr_mult : ℚ
  entry_style : String
  price_buffer_bps : ℤ
  exclusions : Exclusions
deriving DecidableEq

/-- Per-run skip tallies of `build_order_intents`. -/
structure BuildSkipped where
  insufficient_data : ℕ
  sizing_failed : ℕ
  duplicate : ℕ
deriving DecidableEq

/-- Candidate loop of `build_order_intents`: one pass over the sorted,
filtered rows accumulating `(intents, skipped)`. -/
def build_loop (config : PaperConfig) (account_equity : ℚ)
    (existing_symbols : List String) (run_id as_of : String) :
    List ScanRow → List Intent × BuildSkipped → List Intent × BuildSkipped
  | [], acc => acc
  | row :: rest, (intents, skipped) =>
    if row.symbol ∈ existing_symbols then
      build_loop config account_equity existing_symbols run_id as_of rest
        (intents, { skipped with duplicate := skipped.duplicate + 1 })
    else if row.close = none ∨ row.atr20 = none then
      build_loop config account_equity existing_symbols run_id as_of rest
        (intents, { skipped with insufficient_data := skipped.insufficient_data + 1 })
    else
      let close := row.close.getD 0
      let atr := row.atr20.getD (close * 0.02)
      let qty := compute_safe_position_size account_equity close atr
        config.stop_atr_mult config.risk_per_trade_pct config.min_notional
        (config.max_pos_pct_of_equity / 100)
      if qty = 0 then
        build_loop config account_equity existing_symbols run_id as_of rest
          (intents, { skipped with sizing_failed := skipped.sizing_failed + 1 })
      else
        let entry_leg := construct_entry_leg config.entry_style close
          config.price_buffer_bps
        let entry_price := match entry_leg.limit_price with
          | some p => if p = 0 then close else p
          | none => close
        let bracket := construct_bracket_levels entry_price atr
          config.stop_atr_mult config.target_atr_mult
        let intent : Intent :=
          { run_id := run_id
            symbol := row.symbol
            side := "buy"
            qty := qty
            entry := entry_leg
            bracket := ⟨bracket.1, bracket.2⟩
            meta := { score := row.score, atr := atr, rsi14 := row.rsi14.getD 0,
                      sma50 := row.sma50, close := some close,
                      reason := derive_candidate_reason row }
            client_order_id := run_id ++ ":" ++ row.symbol ++ ":" ++ as_of }
        build_loop config account_equity existing_symbols run_id as_of rest
          (intents ++ [intent], skipped)

/-- Embeds `build_order_intents(scan_df, config, account_equity,
open_positions, as_of)`; `open_positions` is the list of held symbols,
`today` the ambient date of the earnings exclusion.  Returns the final
intents and the skip tallies of the run summary. -/
def build_order_intents (scan_df : List ScanRow) (config : PaperConfig)
    (account_equity : ℚ) (open_positions : List String) (as_of : String)
    (today : ℤ) : List Intent × BuildSkipped :=
  let run_id := generate_run_id as_of
  let filtered := filter_candidates scan_df config.min_score config.exclusions today
  let filtered := apply_price_guards filtered config.min_price config.allow_penny_stocks
  let filtered :=
    if config.sort_by = "score" then
      filtered.insertionSort (fun a b => b.score ≤ a.score)
    else if config.sort_by = "rsi_room" then
      filtered.insertionSort (fun a b => 70 - b.rsi14.getD 0 ≤ 70 - a.rsi14.getD 0)
    else filtered
  let built := build_loop config account_equity open_positions run_id as_of
    filtered ([], ⟨0, 0, 0⟩)
  let final_intents := enforce_portfolio_caps built.1 account_equity
    config.max_symbols config.max_gross_exposure_pct
  (final_intents, built.2)

/-! ## `src/trading/executor.py`

The broker adapter is modelled as a record of state-passing functions over
an abstract broker-state type `σ`; a raised exception from a call is an
`Except.error`.  The order-write endpoints (`submit_bracket_order`,
`submit_opg_entry`) are the only state-changing operations. -/

/-- An order as the broker reports it (`get_order_by_client_id` result). -/
structure OrderRec where
  id : String
  client_order_id : String
  symbol : String
  status : String
deriving DecidableEq

/-- Arguments of `adapter.submit_bracket_order`. -/
structure BracketReq where
  symbol : String
  qty : ℤ
  side : String
  entry_type : String
  time_in_force : String
  limit_price : Option ℚ
  stop_loss : ℚ
  take_profit : ℚ
  client_order_id : String
  open_only : Bool
deriving DecidableEq

/-- Arguments of `adapter.submit_opg_entry`. -/
structure OpgReq where
  symbol : String
  qty : ℤ
  limit_price : ℚ
  client_order_id : String
deriving DecidableEq

/-- The broker adapter surface the executor uses. -/
structure Adapter (σ : Type) where
  get_order_by_client_id : σ → String → Except Unit (Option OrderRec)
  supports_opg_bracket : Bool
  submit_bracket_order : σ → BracketReq → Except String (OrderRec × σ)
  submit_opg_entry : σ → OpgReq → Except String (OrderRec × σ)

/-- Embeds `ensure_not_already_placed(adapter, client_order_id)`: `true`
iff it is safe to place; a lookup exception also yields `false`. -/
def ensure_not_already_placed {σ : Type} (adapter : Adapter σ) (s : σ)
    (client_order_id : String) : Bool :=
  match adapter.get_order_by_client_id s client_order_id with
  | .ok (some _) => false
  | .ok none => true
  | .error _ => false

/-- Result dict of `place_with_fallback`. -/
structure PlacementResult where
  symbol : String
  client_order_id : String
  strategy_used : String
  success : Bool
  order_id : Option String
  error : Option String
  pending_oco : Bool
deriving DecidableEq

/-- Embeds `place_with_fallback(adapter, intent, fallback_strategy)`,
threading the broker state. -/
def place_with_fallback {σ : Type} (adapter : Adapter σ) (s : σ)
    (intent : Intent) (fallback_strategy : String) : PlacementResult × σ :=
  let base : PlacementResult :=
    { symbol := intent.symbol, client_order_id := intent.client_order_id,
      strategy_used := fallback_strategy, success := false,
      order_id := none, error := none, pending_oco := false }
  if fallback_strategy = "opg_bracket" then
    match adapter.submit_bracket_order s
      ⟨intent.symbol, intent.qty, "buy", intent.entry.type, "opg",
        intent.entry.limit_price, intent.bracket.stop_loss,
        intent.bracket.take_profit, intent.client_order_id, true⟩ with
    | .ok (order, s') => ({ base with success := true, order_id := some order.id }, s')
    | .error e => ({ base with error := some e }, s)
  else if fallback_strategy = "opg_then_oco" then
    if intent.entry.type = "limit" then
      match adapter.submit_opg_entry s
        ⟨intent.symbol, intent.qty, intent.entry.limit_price.getD 0,
          intent.client_order_id⟩ with
      | .ok (order, s') =>
        ({ base with success := true, order_id := some order.id, pending_oco := true }, s')
      | .error e => ({ base with error := some e }, s)
    else
      match adapter.submit_bracket_order s
        ⟨intent.symbol, intent.qty, "buy", "market", "opg", none,
          intent.bracket.stop_loss, intent.bracket.take_profit,
          intent.client_order_id, true⟩ with
      | .ok (order, s') =>
        ({ base with success := true, order_id := some order.id, pending_oco := true }, s')
      | .error e => ({ base with error := some e }, s)
  else
    match adapter.submit_bracket_order s
      ⟨intent.symbol, intent.qty, "buy", intent.entry.type, "day",
        intent.entry.limit_price, intent.bracket.stop_loss,
        intent.bracket.take_profit, intent.client_order_id, false⟩ with
    | .ok (order, s') => ({ base with success := true, order_id := some order.id }, s')
    | .error e => ({ base with error := some e }, s)

/-- Entry of `summary['placed']` (in a dry run the source stores a smaller
dict; there `order_id` is `none` and `strategy` is `"dry_run"`). -/
structure PlacedEntry where
  symbol : String
  order_id : Option String
  client_order_id : String
  strategy : String
  pending_oco : Bool
deriving DecidableEq

/-- Entry of `summary['skipped']`. -/
structure SkipEntry where
  symbol : String
  reason : String
  client_order_id : String
deriving DecidableEq

/-- Entry of `summary['errors']`. -/
structure ErrEntry where
  symbol : String
  error : Option String
  client_order_id : String
deriving DecidableEq

/-- The placement summary dict of `place_orders`. -/
structure PlacementSummary where
  run_id : String
  placed : List PlacedEntry
  skipped : List SkipEntry
  errors : List ErrEntry
  dry_run : Bool
deriving DecidableEq

/-- The per-intent loop of `place_orders`, accumulating the summary and
threading the broker state. -/
def place_loop {σ : Type} (adapter : Adapter σ) (fallback_strategy : String) :
    List Intent → PlacementSummary → σ → PlacementSummary × σ
  | [], summary, s => (summary, s)
  | intent :: rest, summary, s =>
    if ¬ ensure_not_already_placed adapter s intent.client_order_id then
      place_loop adapter fallback_strategy rest
        { summary with skipped := summary.skipped ++
            [⟨intent.symbol, "duplicate", intent.client_order_id⟩] } s
    else
      let r := place_with_fallback adapter s intent fallback_strategy
      if r.1.success then
        place_loop adapter fallback_strategy rest
          { summary with placed := summary.placed ++
              [⟨r.1.symbol, r.1.order_id, r.1.client_order_id,
                r.1.strategy_used, r.1.pending_oco⟩] } r.2
      else
        place_loop adapter fallback_strategy rest
          { summary with errors := summary.errors ++
              [⟨r.1.symbol, r.1.error, r.1.client_order_id⟩] } r.2

/-- Embeds `place_orders(adapter, intents, run_id, dry_run)`. -/
def place_orders {σ : Type} (adapter : Adapter σ) (s : σ)
    (intents : List Intent) (run_id : String) (dry_run : Bool) :
    PlacementSummary × σ :=
  let summary : PlacementSummary := ⟨run_id, [], [], [], dry_run⟩
  if dry_run then
    ({ summary with placed := intents.map (fun intent =>
        ⟨intent.symbol, none, intent.client_order_id, "dry_run", false⟩) }, s)
  else
    let has_market_orders := intents.any (fun intent =>
      intent.entry.open_only = some false)
    let fallback_strategy :=
      if has_market_orders then "day_bracket"
      else if adapter.supports_opg_bracket then "opg_bracket"
      else "opg_then_oco"
    place_loop adapter fallback_strategy intents summary s

/-! ### A concrete in-memory broker, for the idempotency claims. -/

/-- In-memory broker state: the submitted orders and a count of calls to
the order-write endpoints. -/
structure MemBroker where
  orders : List OrderRec
  writes : ℕ
deriving DecidableEq

/-- The in-memory adapter: lookup by client order id over the submitted
orders; every write succeeds, appends one order and bumps the write count. -/
def memAdapter : Adapter MemBroker :=
  { get_order_by_client_id := fun s cid =>
      .ok (s.orders.find? (fun o => o.client_order_id = cid))
    supports_opg_bracket := false
    submit_bracket_order := fun s req =>
      let order : OrderRec := ⟨req.client_order_id ++ ":oid", req.client_order_id,
        req.symbol, "accepted"⟩
      .ok (order, ⟨s.orders ++ [order], s.writes + 1⟩)
    submit_opg_entry := fun s req =>
      let order : OrderRec := ⟨req.client_order_id ++ ":oid", req.client_order_id,
        req.symbol, "accepted"⟩
      .ok (order, ⟨s.orders ++ [order], s.writes + 1⟩) }

/-! ## `src/trading/reconciliation.py`

Reconciliation only reads broker state (fills, open orders) and issues
cancel / OCO-submit calls; the broker's read responses are modelled as
pure functions (the broker snapshot does not change during the pass), and
the calls the engine makes are returned as explicit traces. -/

/-- A one-cancels-other stop/target submission
(`adapter.submit_oco_stops(...)` call arguments). -/
structure OCOReq where
  symbol : String
  qty : ℤ
  stop_price : ℚ
  target_price : ℚ
  parent_id : String
deriving DecidableEq

/-- An open order as `adapter.list_orders(status='open')` reports it
(`created_at` is a timestamp in seconds). -/
structure OpenOrder where
  id : String
  symbol : String
  client_order_id : String
  time_in_force : String
  created_at : ℚ
deriving DecidableEq

/-- The broker surface reconciliation uses.  `check_order_fill` returns
`(is_filled, avg_price, filled_qty)`; a `None` filled quantity is `none`. -/
structure RecBroker where
  list_orders_open : List OpenOrder
  check_order_fill : String → Bool × ℚ × Option ℤ
  submit_oco_stops : OCOReq → Except String Unit
  cancel_order : String → Except String Unit
  get_order : String → Except String String

/-- One entry of the persisted placement manifest (`state/placement`). -/
structure ManifestEntry where
  symbol : String
  order_id : String
  client_order_id : String
  strategy : String
  pending_oco : Bool
deriving DecidableEq

/-- Python truthiness of the `filled_qty` component (`None` and `0` are
falsy). -/
def qty_truthy : Option ℤ → Bool
  | some q => q ≠ 0
  | none => false

/-- Summary dict of `morning_reconcile`. -/
structure MorningSummary where
  run_id : String
  opg_cancelled : ℕ
  oco_placed : ℕ
  errors : List String
deriving DecidableEq

/-- The stale-OPG cancellation loop of `morning_reconcile`: cancel any open
OPG order older than 18 hours. -/
def stale_opg_pass (adapter : RecBroker) (as_of : ℚ) :
    List OpenOrder → MorningSummary → MorningSummary
  | [], summary => summary
  | order :: rest, summary =>
    if order.time_in_force = "opg" ∧ (as_of - order.created_at) / 3600 > 18 then
      match adapter.cancel_order order.id with
      | .ok _ => stale_opg_pass adapter as_of rest
          { summary with opg_cancelled := summary.opg_cancelled + 1 }
      | .error _ => stale_opg_pass adapter as_of rest
          { summary with errors := summary.errors ++ ["Cancel failed: " ++ order.symbol] }
    else stale_opg_pass adapter as_of rest summary

/-- The OCO attempt `morning_reconcile` makes for one placement-manifest
entry: only for `pending_oco` entries whose entry order is filled with a
truthy quantity, sized to the broker-reported filled quantity and priced
from the first matching persisted intent. -/
def morning_oco_attempt (adapter : RecBroker) (intents_file : Option (List Intent))
    (placed : ManifestEntry) : Option OCOReq :=
  if placed.pending_oco then
    let fill := adapter.check_order_fill placed.order_id
    if fill.1 ∧ qty_truthy fill.2.2 then
      match intents_file with
      | some intents =>
        match intents.find? (fun intent => intent.symbol = placed.symbol) with
        | some intent => some ⟨placed.symbol, fill.2.2.getD 0,
            intent.bracket.stop_loss, intent.bracket.take_profit, placed.order_id⟩
        | none => none
      | none => none
    else none
  else none

/-- The pending-OCO loop of `morning_reconcile`, returning the updated
summary and the trace of OCO submissions attempted. -/
def morning_oco_pass (adapter : RecBroker) (intents_file : Option (List Intent)) :
    List ManifestEntry → MorningSummary → MorningSummary × List OCOReq
  | [], summary => (summary, [])
  | placed :: rest, summary =>
    match morning_oco_attempt adapter intents_file placed with
    | some req =>
      let summary' := match adapter.submit_oco_stops req with
        | .ok _ => { summary with oco_placed := summary.oco_placed + 1 }
        | .error _ =>
          { summary with errors := summary.errors ++ ["OCO failed: " ++ placed.symbol] }
      let r := morning_oco_pass adapter intents_file rest summary'
      (r.1, req :: r.2)
    | none => morning_oco_pass adapter intents_file rest summary

/-- Embeds `morning_reconcile(adapter, run_id, as_of)`.  The placement
manifest and the day's intents file are the persisted state the source
loads from disk (`none` models a missing file).  Returns the summary and
the trace of OCO submissions the engine attempted. -/
def morning_reconcile (adapter : RecBroker) (run_id : String) (as_of : ℚ)
    (placement_data : Option (List ManifestEntry))
    (intents_file : Option (List Intent)) : MorningSummary × List OCOReq :=
  let summary : MorningSummary := ⟨run_id, 0, 0, []⟩
  let summary := stale_opg_pass adapter as_of adapter.list_orders_open summary
  match placement_data with
  | some placed_list =>
    if placed_list = [] then (summary, [])
    else morning_oco_pass adapter intents_file placed_list summary
  | none => (summary, [])

/-- Summary dict of `reconcile_with_manifest` (the source key `partial` is
rendered `partly_filled` here). -/
structure ManifestSummary where
  checked : ℕ
  filled : ℕ
  partly_filled : ℕ
  pending : ℕ
  cancelled : ℕ
  oco_needed : ℕ
  oco_placed : ℕ
deriving DecidableEq

/-- The intent lookup `reconcile_with_manifest` builds
(`{i['symbol']: i for i in intents}`; a later duplicate overwrites an
earlier one, hence the reverse search). -/
def intent_by_symbol (intents : List Intent) (symbol : String) : Option Intent :=
  intents.reverse.find? (fun intent => intent.symbol = symbol)

/-- The OCO attempt `reconcile_with_manifest` makes for one manifest entry:
only for filled `pending_oco` entries with a persisted intent for the
symbol, sized to the broker-reported filled quantity and priced from that
intent's bracket. -/
def manifest_oco_attempt (adapter : RecBroker) (intents : List Intent)
    (placed : ManifestEntry) : Option OCOReq :=
  let fill := adapter.check_order_fill placed.order_id
  if fill.1 then
    if placed.pending_oco then
      match intent_by_symbol intents placed.symbol with
      | some intent => some ⟨placed.symbol, fill.2.2.getD 0,
          intent.bracket.stop_loss, intent.bracket.take_profit, placed.order_id⟩
      | none => none
    else none
  else none

/-- The per-placement loop of `reconcile_with_manifest`. -/
def manifest_pass (adapter : RecBroker) (intents : List Intent) :
    List ManifestEntry → ManifestSummary → ManifestSummary × List OCOReq
  | [], summary => (summary, [])
  | placed :: rest, summary =>
    let summary := { summary with checked := summary.checked + 1 }
    let fill := adapter.check_order_fill placed.order_id
    if fill.1 then
      let summary := { summary with filled := summary.filled + 1 }
      if placed.pending_oco then
        let summary := { summary with oco_needed := summary.oco_needed + 1 }
        match manifest_oco_attempt adapter intents placed with
        | some req =>
          let summary' := match adapter.submit_oco_stops req with
            | .ok _ => { summary with oco_placed := summary.oco_placed + 1 }
            | .error _ => summary
          let r := manifest_pass adapter intents rest summary'
          (r.1, req :: r.2)
        | none => manifest_pass adapter intents rest summary
      else manifest_pass adapter intents rest summary
    else if qty_truthy fill.2.2 ∧ 0 < fill.2.2.getD 0 then
      manifest_pass adapter intents rest
        { summary with partly_filled := summary.partly_filled + 1 }
    else
      match adapter.get_order placed.order_id with
      | .ok status =>
        if status = "canceled" then
          manifest_pass adapter intents rest
            { summary with cancelled := summary.cancelled + 1 }
        else
          manifest_pass adapter intents rest
            { summary with pending := summary.pending + 1 }
      | .error _ =>
        manifest_pass adapter intents rest
          { summary with cancelled := summary.cancelled + 1 }

/-- Embeds `reconcile_with_manifest(adapter, manifest_path, intent_path)`;
`none` models a missing file.  Returns the summary and the trace of OCO
submissions the engine attempted. -/
def reconcile_with_manifest (adapter : RecBroker)
    (manifest : Option (List ManifestEntry)) (intents : Option (List Intent)) :
    ManifestSummary × List OCOReq :=
  match manifest, intents with
  | some placed_list, some intent_list =>
    manifest_pass adapter intent_list placed_list ⟨0, 0, 0, 0, 0, 0, 0⟩
  | _, _ => (⟨0, 0, 0, 0, 0, 0, 0⟩, [])

/-! ## Claim C6: gate order, inclusivity, first-failure-wins -/

/-- C6: `evaluate_gates` checks exactly the three closed-interval gates in
the fixed order ATR ratio ∈ [0.5%, 8%], trend (close ≥ 50-session
average), pullback ∈ [5%, 20%], all boundaries inclusive; the returned
reason is the first failing gate's and no later gate matters; inputs
exactly at each boundary pass, inputs one unit outside fail with that
gate's reason. -/
theorem evaluate_gates_characterization :
    (∀ a c s p : ℚ,
      (evaluate_gates a c s p = (true, none) ↔
        ((0.005 ≤ a ∧ a ≤ 0.08) ∧ s * 1.0 ≤ c ∧ (0.05 ≤ p / 100 ∧ p / 100 ≤ 0.20))) ∧
      (evaluate_gates a c s p = (false, some "gate_atr_ratio") ↔
        ¬(0.005 ≤ a ∧ a ≤ 0.08)) ∧
      (evaluate_gates a c s p = (false, some "gate_trend_filter") ↔
        ((0.005 ≤ a ∧ a ≤ 0.08) ∧ ¬(s * 1.0 ≤ c))) ∧
      (evaluate_gates a c s p = (false, some "gate_pullback_band") ↔
        ((0.005 ≤ a ∧ a ≤ 0.08) ∧ s * 1.0 ≤ c ∧
          ¬(0.05 ≤ p / 100 ∧ p / 100 ≤ 0.20)))) ∧
    evaluate_gates 0.005 100 100 10 = (true, none) ∧
    evaluate_gates 0.08 100 100 10 = (true, none) ∧
    evaluate_gates (49/10000) 100 100 10 = (false, some "gate_atr_ratio") ∧
    evaluate_gates (801/10000) 100 100 10 = (false, some "gate_atr_ratio") ∧
    evaluate_gates 0.03 100 100 10 = (true, none) ∧
    evaluate_gates 0.03 (9999/100) 100 10 = (false, some "gate_trend_filter") ∧
    evaluate_gates 0.03 100 100 5 = (true, none) ∧
    evaluate_gates 0.03 100 100 20 = (true, none) ∧
    evaluate_gates 0.03 100 100 (499/100) = (false, some "gate_pullback_band") ∧
    evaluate_gates 0.03 100 100 (2001/100) = (false, some "gate_pullback_band") ∧
    evaluate_gates 1 0 100 0 = (false, some "gate_atr_ratio") := by
  refine ⟨?_, ?_⟩
  · intro a c s p
    refine ⟨?_, ?_, ?_, ?_⟩ <;>
      · simp only [evaluate_gates]
        split_ifs with h1 h2 h3 <;> simp_all
  · refine ⟨?_, ?_, ?_, ?_, ?_, ?_, ?_, ?_, ?_, ?_, ?_⟩ <;>
      · simp only [evaluate_gates]
        norm_num

/-! ## Claim C4: typed null for short history, no exception at ≥ 250 bars -/

/-- A plain constant bar used for concrete inputs. -/
def cBar : Bar := ⟨100, 101, 99, 1000000⟩

/-- C4 (failing input): on a 250-bar input — which the claim and
`MIN_BARS_REQUIRED = 250` say must yield a typed result without raising —
`calculate_score_v2` propagates the `ValueError` that
`calculate_indicators_t_minus_1` raises for fewer than 366 bars, for every
log model and every regime observation. -/
theorem calculate_score_v2_raises_at_250_bars :
    ∀ (lg : ℚ → ℚ) (regime : Regime),
      calculate_score_v2 lg regime (List.replicate 250 cBar) =
        .error "Insufficient bars: fewer than 366" := by
  intro lg regime
  have hind : calculate_indicators_t_minus_1 (List.replicate 250 cBar) =
      .error "Insufficient bars: fewer than 366" := by
    unfold calculate_indicators_t_minus_1
    rw [List.length_replicate, if_pos (show (250 : ℕ) < 366 by norm_num)]
  have hraw : calculate_raw_features lg (List.replicate 250 cBar) =
      .error "Insufficient bars: fewer than 366" := by
    unfold calculate_raw_features
    rw [hind]
    rfl
  unfold calculate_score_v2
  rw [List.length_replicate,
    if_neg (show ¬ (250 : ℕ) < MIN_BARS_REQUIRED by norm_num [MIN_BARS_REQUIRED]),
    hraw]

/-! ## Claim C5: portfolio cap enforcement -/

/-- Combined notional of a list of intents, at the reference price
`enforce_portfolio_caps` uses. -/
def intents_notional (intents : List Intent) : ℚ :=
  (intents.map (fun intent => (intent.qty : ℚ) * caps_price intent)).sum

/-- A high-scored large-notional candidate. -/
def capsIntentA : Intent :=
  { run_id := "r", symbol := "AAA", side := "buy", qty := 1,
    entry := ⟨"limit", "opg", some 100, some true⟩, bracket := ⟨95, 110⟩,
    meta := { score := 10, atr := 1, rsi14 := 50, sma50 := none,
              close := some 100, reason := "t" },
    client_order_id := "r:AAA" }

/-- A low-scored small-notional candidate. -/
def capsIntentB : Intent :=
  { run_id := "r", symbol := "BBB", side := "buy", qty := 1,
    entry := ⟨"limit", "opg", some 10, some true⟩, bracket := ⟨9, 11⟩,
    meta := { score := 5, atr := 1, rsi14 := 50, sma50 := none,
              close := some 10, reason := "t" },
    client_order_id := "r:BBB" }

/-- C5 (counterexample): with a $100 account, a 50% gross-exposure cap and
two candidates of notional $100 (score 10) and $10 (score 5) — combined
notional $110 over the $50 cap — `enforce_portfolio_caps` skips the
over-cap top candidate and keeps the later one, returning `[capsIntentB]`,
which is not a prefix (let alone a strict one) of the score-sorted list:
the loop `continue`s past a too-large intent instead of truncating. -/
theorem enforce_portfolio_caps_not_prefix :
    intents_notional [capsIntentA, capsIntentB] > 100 * (50 / 100) ∧
    sort_by_score_desc [capsIntentA, capsIntentB] = [capsIntentA, capsIntentB] ∧
    enforce_portfolio_caps [capsIntentA, capsIntentB] 100 10 50 = [capsIntentB] ∧
    ¬ (enforce_portfolio_caps [capsIntentA, capsIntentB] 100 10 50 <+:
        sort_by_score_desc [capsIntentA, capsIntentB]) := by
  have hsort : sort_by_score_desc [capsIntentA, capsIntentB] =
      [capsIntentA, capsIntentB] := by
    norm_num [sort_by_score_desc, List.insertionSort, List.orderedInsert,
      capsIntentA, capsIntentB]
  have henf : enforce_portfolio_caps [capsIntentA, capsIntentB] 100 10 50 =
      [capsIntentB] := by
    unfold enforce_portfolio_caps
    rw [if_neg (by simp)]
    rw [hsort]
    unfold caps_select
    norm_num [caps_price, capsIntentA, capsIntentB]
    unfold caps_select
    norm_num [caps_price, capsIntentB]
    rfl
  refine ⟨by norm_num [intents_notional, caps_price, capsIntentA, capsIntentB], hsort,
    henf, ?_⟩
  rw [henf, hsort]
  intro h
  rcases List.cons_prefix_cons.mp h with ⟨hab, -⟩
  have : capsIntentB.symbol = capsIntentA.symbol := by rw [hab]
  simp [capsIntentA, capsIntentB] at this

/-- Shape of the `caps_select` loop: it extends the already-selected list by
a subsequence of the remaining candidates, never exceeds the symbol budget,
and keeps the running exposure at or under the cap whenever it adds
anything. -/
theorem caps_select_shape :
    ∀ (rest selected : List Intent) (total maxE : ℚ) (maxS : ℕ),
      ∃ extra : List Intent,
        caps_select rest selected total maxE maxS = selected ++ extra ∧
        extra.Sublist rest ∧
        (selected ++ extra).length ≤ max selected.length maxS ∧
        (total + intents_notional extra ≤ maxE ∨ extra = []) := by
  intro rest
  induction rest with
  | nil =>
    intro selected total maxE maxS
    exact ⟨[], by simp [caps_select], List.Sublist.refl _, by simp, Or.inr rfl⟩
  | cons i rest ih =>
    intro selected total maxE maxS
    by_cases hbreak : maxS ≤ selected.length
    · refine ⟨[], ?_, List.nil_sublist _, by simp, Or.inr rfl⟩
      unfold caps_select
      rw [if_pos hbreak]
      simp
    · by_cases hskip : total + (i.qty : ℚ) * caps_price i > maxE
      · obtain ⟨extra, heq, hsub, hlen, hsum⟩ := ih selected total maxE maxS
        refine ⟨extra, ?_, hsub.cons i, hlen, hsum⟩
        unfold caps_select
        rw [if_neg hbreak, if_pos hskip]
        exact heq
      · obtain ⟨extra, heq, hsub, hlen, hsum⟩ :=
          ih (selected ++ [i]) (total + (i.qty : ℚ) * caps_price i) maxE maxS
        refine ⟨i :: extra, ?_, List.Sublist.cons₂ i hsub, ?_, ?_⟩
        · unfold caps_select
          rw [if_neg hbreak, if_neg hskip]
          rw [heq]
          simp
        · have : selected.length < maxS := lt_of_not_le hbreak
          simp only [List.length_append, List.length_cons, List.length_singleton] at hlen ⊢
          omega
        · rcases hsum with hle | hnil
          · left
            have : intents_notional (i :: extra) =
                (i.qty : ℚ) * caps_price i + intents_notional extra := by
              simp [intents_notional]
            linarith
          · left
            subst hnil
            have : intents_notional [i] = (i.qty : ℚ) * caps_price i := by
              simp [intents_notional]
            push_neg at hskip
            linarith [hskip]

/-- C5 (amended): for every candidate set, equity ≥ 0 and cap percentage
≥ 0, `enforce_portfolio_caps` returns a subsequence of the score-sorted
(descending, stable) intent list — each kept intent with its original,
never partially reduced quantity — whose cumulative notional is at most
the configured cap `equity × pct/100` and whose length is at most the
symbol budget.  (The source greedily keeps every candidate that fits,
skipping over-cap ones, so the result is a subsequence but not in general
a prefix.) -/
theorem enforce_portfolio_caps_subsequence :
    ∀ (intents : List Intent) (account_equity : ℚ) (max_symbols : ℕ)
      (max_gross_exposure_pct : ℚ),
      0 ≤ account_equity → 0 ≤ max_gross_exposure_pct →
      (enforce_portfolio_caps intents account_equity max_symbols
          max_gross_exposure_pct).Sublist (sort_by_score_desc intents) ∧
      intents_notional (enforce_portfolio_caps intents account_equity max_symbols
          max_gross_exposure_pct) ≤
        account_equity * (max_gross_exposure_pct / 100) ∧
      (enforce_portfolio_caps intents account_equity max_symbols
          max_gross_exposure_pct).length ≤ max_symbols := by
  intro intents e maxS pct he hpct
  have hcap : (0 : ℚ) ≤ e * (pct / 100) := by positivity
  unfold enforce_portfolio_caps
  by_cases hnil : intents = []
  · rw [if_pos hnil]
    subst hnil
    refine ⟨?_, by simpa [intents_notional] using hcap, by simp⟩
    simp [sort_by_score_desc, List.insertionSort]
  · rw [if_neg hnil]
    obtain ⟨extra, heq, hsub, hlen, hsum⟩ :=
      caps_select_shape (sort_by_score_desc intents) [] 0 (e * (pct / 100)) maxS
    rw [heq]
    simp only [List.nil_append] at heq ⊢
    refine ⟨hsub, ?_, ?_⟩
    · rcases hsum with hle | hnil'
      · linarith
      · subst hnil'
        simpa [intents_notional] using hcap
    · simpa using hlen

/-- C5 (witness): the amended theorem applied to the concrete two-intent
portfolio of the counterexample. -/
theorem enforce_portfolio_caps_subsequence_witness :
    (0 : ℚ) ≤ 100 ∧ (0 : ℚ) ≤ 50 ∧
    ((enforce_portfolio_caps [capsIntentA, capsIntentB] 100 10 50).Sublist
        (sort_by_score_desc [capsIntentA, capsIntentB]) ∧
      intents_notional (enforce_portfolio_caps [capsIntentA, capsIntentB] 100 10 50) ≤
        100 * (50 / 100) ∧
      (enforce_portfolio_caps [capsIntentA, capsIntentB] 100 10 50).length ≤ 10) :=
  ⟨by norm_num, by norm_num,
    enforce_portfolio_caps_subsequence [capsIntentA, capsIntentB] 100 10 50
      (by norm_num) (by norm_num)⟩

/-! ## Claim C7: risk-based position sizing -/

/-- The claim's sizing formula, written from the spec's words:
`floor((equity × riskPct) / (ATR × stopMultiplier))` with `riskPct` a
fraction. -/
def spec_raw_shares (equity atr stop_mult risk_frac : ℚ) : ℤ :=
  ⌊equity * risk_frac / (atr * stop_mult)⌋

/-- The claim's full sizing pipeline, written from the spec's words: the
floor formula, then the minimum-notional drop and the
maximum-percent-of-equity reduction (with its re-check), and nothing
else. -/
def spec_position_size (equity entry_price atr stop_mult risk_frac
    min_notional max_pos_frac : ℚ) : ℤ :=
  let shares := spec_raw_shares equity atr stop_mult risk_frac
  if shares < 1 then 0
  else if (shares : ℚ) * entry_price < min_notional then 0
  else
    let max_position_value := equity * max_pos_frac
    if (shares : ℚ) * entry_price > max_position_value then
      let reduced : ℤ := ⌊max_position_value / entry_price⌋
      if (reduced : ℚ) * entry_price < min_notional then 0 else reduced
    else shares

/-- The source's `compute_position_size` is exactly the claim's pipeline
(with its percent inputs read as fractions). -/
theorem compute_position_size_eq_spec :
    ∀ (equity entry_price atr stop_mult risk_pct min_notional max_pos_pct : ℚ),
      0 ≤ atr * stop_mult →
      compute_position_size equity entry_price atr stop_mult risk_pct
          min_notional max_pos_pct =
        spec_position_size equity entry_price atr stop_mult (risk_pct / 100)
          min_notional (max_pos_pct / 100) := by
  intro e p a sm rp mn mpp h
  by_cases hpos : a * sm > 0
  · simp only [compute_position_size, spec_position_size, spec_raw_shares,
      if_pos hpos]
  · have h0 : a * sm = 0 := le_antisymm (not_lt.mp hpos) h
    simp [compute_position_size, spec_position_size, spec_raw_shares, h0]

/-- C7 (counterexample): for a $10M account, a $4 stock, ATR $0.01, stop
multiplier 1, risk 0.5%, minimum notional $200 and a 100% max position,
the Intent Builder's sizing (`compute_safe_position_size`, the function
`build_order_intents` calls) returns 5000 shares — its low-price share
cap — while the claim's floor-then-clamp pipeline gives 2,500,000: the
builder applies an additional penny-stock cap the claim omits. -/
theorem compute_safe_position_size_penny_cap :
    compute_safe_position_size 10000000 4 (1/100) 1 (1/2) 200 1 = 5000 ∧
    spec_position_size 10000000 4 (1/100) 1 (1/200) 200 1 = 2500000 ∧
    compute_safe_position_size 10000000 4 (1/100) 1 (1/2) 200 1 ≠
      spec_position_size 10000000 4 (1/100) 1 (1/200) 200 1 := by
  have hspec : spec_position_size 10000000 4 (1/100) 1 (1/200) 200 1 = 2500000 := by
    norm_num [spec_position_size, spec_raw_shares]
  have hsafe : compute_safe_position_size 10000000 4 (1/100) 1 (1/2) 200 1 = 5000 := by
    norm_num [compute_safe_position_size, compute_position_size]
  exact ⟨hsafe, hspec, by rw [hsafe, hspec]; norm_num⟩

/-- Every intent the builder loop accumulates has nonzero quantity. -/
theorem build_loop_qty_ne_zero (config : PaperConfig) (account_equity : ℚ)
    (existing_symbols : List String) (run_id as_of : String) :
    ∀ (rows : List ScanRow) (acc : List Intent × BuildSkipped),
      (∀ i ∈ acc.1, i.qty ≠ 0) →
      ∀ i ∈ (build_loop config account_equity existing_symbols run_id as_of
          rows acc).1, i.qty ≠ 0 := by
  intro rows
  induction rows with
  | nil =>
    intro acc hacc i hi
    obtain ⟨intents, skipped⟩ := acc
    simp only [build_loop] at hi
    exact hacc i hi
  | cons row rest ih =>
    intro acc hacc i hi
    obtain ⟨intents, skipped⟩ := acc
    simp only [build_loop] at hi
    split_ifs at hi with h1 h2 h3
    · exact ih (intents, { skipped with duplicate := skipped.duplicate + 1 })
        (fun j hj => hacc j hj) i hi
    · exact ih (intents,
          { skipped with insufficient_data := skipped.insufficient_data + 1 })
        (fun j hj => hacc j hj) i hi
    · exact ih (intents, { skipped with sizing_failed := skipped.sizing_failed + 1 })
        (fun j hj => hacc j hj) i hi
    · refine ih _ ?_ i hi
      intro j hj
      rcases List.mem_append.mp hj with hj | hj
      · exact hacc j hj
      · rcases List.mem_singleton.mp hj with rfl
        simpa using h3

/-- Membership in the capped portfolio implies membership in the input
intents. -/
theorem mem_of_mem_enforce_portfolio_caps
    {intents : List Intent} {e : ℚ} {ms : ℕ} {pct : ℚ} {i : Intent} :
    i ∈ enforce_portfolio_caps intents e ms pct → i ∈ intents := by
  unfold enforce_portfolio_caps
  by_cases hnil : intents = []
  · rw [if_pos hnil]
    exact fun h => h
  · rw [if_neg hnil]
    intro hmem
    obtain ⟨extra, heq, hsub, -, -⟩ :=
      caps_select_shape (sort_by_score_desc intents) [] 0 (e * (pct / 100)) ms
    rw [heq] at hmem
    simp only [List.nil_append] at hmem
    have : i ∈ sort_by_score_desc intents := hsub.mem hmem
    exact (List.perm_insertionSort _ intents).mem_iff.mp this

/-- C7 (amended): the Intent Builder's share count is the claim's
`floor((equity × riskPct)/(ATR × stopMult))` clamped by the minimum
notional and the maximum percent of equity, **additionally capped at 5000
shares for stocks under $5 (2000 under $1)**; zero-size results are
dropped — no built intent has zero quantity; and the concrete spec example
gives exactly 83 shares before cap clamping. -/
theorem position_sizing_amended :
    spec_raw_shares 50000 2 (3/2) (1/200) = 83 ∧
    (∀ (equity price atr stop_mult risk_pct min_notional max_pos_frac : ℚ),
      0 ≤ atr * stop_mult →
      compute_safe_position_size equity price atr stop_mult risk_pct
          min_notional max_pos_frac =
        (let s := spec_position_size equity price atr stop_mult (risk_pct / 100)
            min_notional max_pos_frac
         if price < 5 ∧ s > 5000 then 5000
         else if price < 1 ∧ s > 2000 then 2000
         else s)) ∧
    (∀ (scan_df : List ScanRow) (config : PaperConfig) (account_equity : ℚ)
        (open_positions : List String) (as_of : String) (today : ℤ)
        (i : Intent),
      i ∈ (build_order_intents scan_df config account_equity open_positions
          as_of today).1 → i.qty ≠ 0) := by
  refine ⟨by norm_num [spec_raw_shares], ?_, ?_⟩
  · intro e p a sm rp mn mpf h
    have := compute_position_size_eq_spec e p a sm rp mn (mpf * 100) h
    simp only [compute_safe_position_size, this]
    have hfrac : mpf * 100 / 100 = mpf := by ring
    rw [hfrac]
  · intro scan config e pos asof today i hi
    unfold build_order_intents at hi
    have hmem := mem_of_mem_enforce_portfolio_caps hi
    exact build_loop_qty_ne_zero config e pos (generate_run_id asof) asof _ _
      (by intro j hj; simp at hj) i hmem

/-- C7 (witness): the amended sizing statement at the spec's own example
inputs ($50,000 equity, $100 entry, $2 ATR, 1.5× stop, 0.5% risk). -/
theorem position_sizing_amended_witness :
    (0 : ℚ) ≤ 2 * (3/2) ∧
    compute_safe_position_size 50000 100 2 (3/2) (1/2) 200 (1/10) =
      (let s := spec_position_size 50000 100 2 (3/2) ((1/2) / 100) 200 (1/10)
       if (100 : ℚ) < 5 ∧ s > 5000 then 5000
       else if (100 : ℚ) < 1 ∧ s > 2000 then 2000
       else s) :=
  ⟨by norm_num,
    position_sizing_amended.2.1 50000 100 2 (3/2) (1/2) 200 (1/10) (by norm_num)⟩

/-! ## Claim C8: sizing monotonicity -/

/-- Monotonicity of the low-price share caps of
`compute_safe_position_size` in the incoming share count. -/
theorem penny_cap_mono (p : ℚ) (x y : ℤ) (hxy : x ≤ y) :
    (if p < 5 ∧ x > 5000 then 5000 else if p < 1 ∧ x > 2000 then 2000 else x) ≤
      (if p < 5 ∧ y > 5000 then (5000 : ℤ) else if p < 1 ∧ y > 2000 then 2000 else y) := by
  by_cases hp5 : p < 5 <;> by_cases hp1 : p < 1 <;> split_ifs <;> simp_all <;> omega

/-- Increasing equity (price, ATR, risk percent fixed) never decreases the
risk-based share count. -/
theorem compute_position_size_equity_mono
    (e1 e2 p a sm rp mn mpp : ℚ) (he1 : 0 ≤ e1) (h12 : e1 ≤ e2) (hp : 0 < p)
    (hrps : 0 < a * sm) (hrp : 0 ≤ rp) (hmpp : 0 ≤ mpp) :
    compute_position_size e1 p a sm rp mn mpp ≤
      compute_position_size e2 p a sm rp mn mpp := by
  have he2 : 0 ≤ e2 := le_trans he1 h12
  set q1 := e1 * (rp / 100) / (a * sm) with hq1
  set q2 := e2 * (rp / 100) / (a * sm) with hq2
  have hq12 : q1 ≤ q2 := by
    rw [hq1, hq2, div_le_div_iff_of_pos_right hrps]
    exact mul_le_mul_of_nonneg_right h12 (by positivity)
  have hq1n : 0 ≤ q1 := by rw [hq1]; positivity
  have hR12 : ⌊q1⌋ ≤ ⌊q2⌋ := Int.floor_le_floor hq12
  have hR1n : 0 ≤ ⌊q1⌋ := Int.floor_nonneg.mpr hq1n
  have hR2n : 0 ≤ ⌊q2⌋ := le_trans hR1n hR12
  set M1 := e1 * (mpp / 100) with hM1
  set M2 := e2 * (mpp / 100) with hM2
  have hM12 : M1 ≤ M2 := by
    rw [hM1, hM2]
    exact mul_le_mul_of_nonneg_right h12 (by positivity)
  have hM1n : 0 ≤ M1 := by rw [hM1]; positivity
  have hC12 : ⌊M1 / p⌋ ≤ ⌊M2 / p⌋ :=
    Int.floor_le_floor ((div_le_div_iff_of_pos_right hp).mpr hM12)
  have hC1n : 0 ≤ ⌊M1 / p⌋ := Int.floor_nonneg.mpr (by positivity)
  have hC2n : 0 ≤ ⌊M2 / p⌋ := le_trans hC1n hC12
  simp only [compute_position_size, if_pos (show a * sm > 0 from hrps), ← hq1, ← hq2,
    ← hM1, ← hM2]
  by_cases h1a : ⌊q1⌋ < 1
  · rw [if_pos h1a]
    split_ifs <;> omega
  · rw [if_neg h1a]
    have h2a : ¬ ⌊q2⌋ < 1 := by omega
    rw [if_neg h2a]
    by_cases h1b : (⌊q1⌋ : ℚ) * p < mn
    · rw [if_pos h1b]
      split_ifs <;> omega
    · rw [if_neg h1b]
      have h2b : ¬ (⌊q2⌋ : ℚ) * p < mn := by
        have : (⌊q1⌋ : ℚ) * p ≤ (⌊q2⌋ : ℚ) * p :=
          mul_le_mul_of_nonneg_right (by exact_mod_cast hR12) hp.le
        intro hcon
        exact h1b (by linarith)
      rw [if_neg h2b]
      by_cases h1c : (⌊q1⌋ : ℚ) * p > M1
      · rw [if_pos h1c]
        by_cases h1d : (⌊M1 / p⌋ : ℚ) * p < mn
        · rw [if_pos h1d]
          split_ifs <;> omega
        · rw [if_neg h1d]
          by_cases h2c : (⌊q2⌋ : ℚ) * p > M2
          · rw [if_pos h2c]
            have h2d : ¬ (⌊M2 / p⌋ : ℚ) * p < mn := by
              have : (⌊M1 / p⌋ : ℚ) * p ≤ (⌊M2 / p⌋ : ℚ) * p :=
                mul_le_mul_of_nonneg_right (by exact_mod_cast hC12) hp.le
              intro hcon
              exact h1d (by linarith)
            rw [if_neg h2d]
            exact hC12
          · rw [if_neg h2c]
            have hfl : (⌊M1 / p⌋ : ℚ) ≤ M1 / p := Int.floor_le _
            have hlt : M1 / p < (⌊q1⌋ : ℚ) := by
              rw [div_lt_iff₀ hp]
              linarith
            have : ⌊M1 / p⌋ < ⌊q1⌋ := by exact_mod_cast lt_of_le_of_lt hfl hlt
            omega
      · rw [if_neg h1c]
        by_cases h2c : (⌊q2⌋ : ℚ) * p > M2
        · rw [if_pos h2c]
          have hle : (⌊q1⌋ : ℤ) ≤ ⌊M2 / p⌋ := by
            apply Int.le_floor.mpr
            rw [le_div_iff₀ hp]
            push_neg at h1c
            linarith
          have h2d : ¬ (⌊M2 / p⌋ : ℚ) * p < mn := by
            have : (⌊q1⌋ : ℚ) * p ≤ (⌊M2 / p⌋ : ℚ) * p :=
              mul_le_mul_of_nonneg_right (by exact_mod_cast hle) hp.le
            intro hcon
            exact h1b (by linarith)
          rw [if_neg h2d]
          exact hle
        · rw [if_neg h2c]
          exact hR12

/-- Increasing ATR (equity, risk percent, price fixed — so risk dollars
fixed) never increases the risk-based share count. -/
theorem compute_position_size_atr_antitone
    (e p a1 a2 sm rp mn mpp : ℚ) (he : 0 ≤ e) (hp : 0 < p) (hsm : 0 < sm)
    (ha1 : 0 < a1) (h12 : a1 ≤ a2) (hrp : 0 ≤ rp) (hmpp : 0 ≤ mpp) :
    compute_position_size e p a2 sm rp mn mpp ≤
      compute_position_size e p a1 sm rp mn mpp := by
  have hrps1 : 0 < a1 * sm := mul_pos ha1 hsm
  have ha2 : 0 < a2 := lt_of_lt_of_le ha1 h12
  have hrps2 : 0 < a2 * sm := mul_pos ha2 hsm
  set q1 := e * (rp / 100) / (a1 * sm) with hq1
  set q2 := e * (rp / 100) / (a2 * sm) with hq2
  have hq21 : q2 ≤ q1 := by
    rw [hq1, hq2]
    apply div_le_div_of_nonneg_left (by positivity) hrps1
    exact mul_le_mul_of_nonneg_right h12 hsm.le
  have hq2n : 0 ≤ q2 := by rw [hq2]; positivity
  have hR21 : ⌊q2⌋ ≤ ⌊q1⌋ := Int.floor_le_floor hq21
  have hR2n : 0 ≤ ⌊q2⌋ := Int.floor_nonneg.mpr hq2n
  have hR1n : 0 ≤ ⌊q1⌋ := le_trans hR2n hR21
  set M := e * (mpp / 100) with hM
  have hMn : 0 ≤ M := by rw [hM]; positivity
  have hCn : 0 ≤ ⌊M / p⌋ := Int.floor_nonneg.mpr (by positivity)
  simp only [compute_position_size, if_pos (show a1 * sm > 0 from hrps1),
    if_pos (show a2 * sm > 0 from hrps2), ← hq1, ← hq2, ← hM]
  by_cases h2a : ⌊q2⌋ < 1
  · rw [if_pos h2a]
    split_ifs <;> omega
  · rw [if_neg h2a]
    have h1a : ¬ ⌊q1⌋ < 1 := by omega
    rw [if_neg h1a]
    by_cases h2b : (⌊q2⌋ : ℚ) * p < mn
    · rw [if_pos h2b]
      split_ifs <;> omega
    · rw [if_neg h2b]
      have h1b : ¬ (⌊q1⌋ : ℚ) * p < mn := by
        have : (⌊q2⌋ : ℚ) * p ≤ (⌊q1⌋ : ℚ) * p :=
          mul_le_mul_of_nonneg_right (by exact_mod_cast hR21) hp.le
        intro hcon
        exact h2b (by linarith)
      rw [if_neg h1b]
      by_cases h2c : (⌊q2⌋ : ℚ) * p > M
      · rw [if_pos h2c]
        have h1c : (⌊q1⌋ : ℚ) * p > M := by
          have : (⌊q2⌋ : ℚ) * p ≤ (⌊q1⌋ : ℚ) * p :=
            mul_le_mul_of_nonneg_right (by exact_mod_cast hR21) hp.le
          linarith
        rw [if_pos h1c]
      · rw [if_neg h2c]
        by_cases h1c : (⌊q1⌋ : ℚ) * p > M
        · rw [if_pos h1c]
          have hle : (⌊q2⌋ : ℤ) ≤ ⌊M / p⌋ := by
            apply Int.le_floor.mpr
            rw [le_div_iff₀ hp]
            push_neg at h2c
            linarith
          have h1d : ¬ (⌊M / p⌋ : ℚ) * p < mn := by
            have : (⌊q2⌋ : ℚ) * p ≤ (⌊M / p⌋ : ℚ) * p :=
              mul_le_mul_of_nonneg_right (by exact_mod_cast hle) hp.le
            intro hcon
            exact h2b (by linarith)
          rw [if_neg h1d]
          exact hle
        · rw [if_neg h1c]
          exact hR21

/-- C8: the computed share count is monotone — nondecreasing in account
equity with price, ATR and risk percent held fixed, and nonincreasing in
ATR with the risk dollars (equity × risk percent) held fixed — both for
`compute_position_size` and for the `compute_safe_position_size` wrapper
the builder uses. -/
theorem position_size_monotonicity :
    (∀ (e1 e2 p a sm rp mn mpp : ℚ), 0 ≤ e1 → e1 ≤ e2 → 0 < p → 0 < a * sm →
      0 ≤ rp → 0 ≤ mpp →
      compute_position_size e1 p a sm rp mn mpp ≤
        compute_position_size e2 p a sm rp mn mpp) ∧
    (∀ (e p a1 a2 sm rp mn mpp : ℚ), 0 ≤ e → 0 < p → 0 < sm → 0 < a1 →
      a1 ≤ a2 → 0 ≤ rp → 0 ≤ mpp →
      compute_position_size e p a2 sm rp mn mpp ≤
        compute_position_size e p a1 sm rp mn mpp) ∧
    (∀ (e1 e2 p a sm rp mn mpf : ℚ), 0 ≤ e1 → e1 ≤ e2 → 0 < p → 0 < a * sm →
      0 ≤ rp → 0 ≤ mpf →
      compute_safe_position_size e1 p a sm rp mn mpf ≤
        compute_safe_position_size e2 p a sm rp mn mpf) ∧
    (∀ (e p a1 a2 sm rp mn mpf : ℚ), 0 ≤ e → 0 < p → 0 < sm → 0 < a1 →
      a1 ≤ a2 → 0 ≤ rp → 0 ≤ mpf →
      compute_safe_position_size e p a2 sm rp mn mpf ≤
        compute_safe_position_size e p a1 sm rp mn mpf) := by
  refine ⟨compute_position_size_equity_mono, compute_position_size_atr_antitone,
    ?_, ?_⟩
  · intro e1 e2 p a sm rp mn mpf he1 h12 hp hrps hrp hmpf
    unfold compute_safe_position_size
    exact penny_cap_mono p _ _
      (compute_position_size_equity_mono e1 e2 p a sm rp mn (mpf * 100) he1 h12 hp
        hrps hrp (by positivity))
  · intro e p a1 a2 sm rp mn mpf he hp hsm ha1 h12 hrp hmpf
    unfold compute_safe_position_size
    exact penny_cap_mono p _ _
      (compute_position_size_atr_antitone e p a1 a2 sm rp mn (mpf * 100) he hp hsm
        ha1 h12 hrp (by positivity))

/-- C8 (witness): equity monotonicity at the spec's example inputs, $50,000
vs $60,000 equity. -/
theorem position_size_monotonicity_witness :
    (0 : ℚ) ≤ 50000 ∧ (50000 : ℚ) ≤ 60000 ∧ (0 : ℚ) < 100 ∧
      (0 : ℚ) < 2 * (3/2) ∧ (0 : ℚ) ≤ 1/2 ∧ (0 : ℚ) ≤ 10 ∧
    compute_position_size 50000 100 2 (3/2) (1/2) 200 10 ≤
      compute_position_size 60000 100 2 (3/2) (1/2) 200 10 :=
  ⟨by norm_num, by norm_num, by norm_num, by norm_num, by norm_num, by norm_num,
    position_size_monotonicity.1 50000 60000 100 2 (3/2) (1/2) 200 10
      (by norm_num) (by norm_num) (by norm_num) (by norm_num) (by norm_num)
      (by norm_num)⟩

/-! ## Evaluation helpers over `List.replicate`-shaped inputs -/

/-- Folding a step function over a constant list from one of its fixed
points stays at the fixed point. -/
theorem foldl_fixed {α β : Type} (f : β → α → β) (a : β) (x : α)
    (h : f a x = a) : ∀ n : ℕ, (List.replicate n x).foldl f a = a := by
  intro n
  induction n with
  | zero => simp
  | succ n ih => rw [List.replicate_succ, List.foldl_cons, h]; exact ih

/-- `zipWith` over two constant lists. -/
theorem zipWith_replicate_min {α β γ : Type} (f : α → β → γ) :
    ∀ (m n : ℕ) (a : α) (b : β),
      List.zipWith f (List.replicate m a) (List.replicate n b) =
        List.replicate (min m n) (f a b) := by
  intro m
  induction m with
  | zero => intro n a b; simp
  | succ m ih =>
    intro n a b
    cases n with
    | zero => simp
    | succ n =>
      rw [List.replicate_succ, List.replicate_succ, List.zipWith_cons_cons, ih]
      rw [show min (m + 1) (n + 1) = min m n + 1 by omega, List.replicate_succ]

/-- Python `max` over a constant list. -/
theorem pymax_replicate (n : ℕ) (hn : n ≠ 0) (c : ℚ) :
    pymax (List.replicate n c) = c := by
  obtain ⟨m, rfl⟩ := Nat.exists_eq_succ_of_ne_zero hn
  rw [List.replicate_succ]
  simp only [pymax]
  exact foldl_fixed max c c (max_self c) m

/-- Python `max` over a constant list with one extra element at the end. -/
theorem pymax_replicate_concat (n : ℕ) (hn : n ≠ 0) (c x : ℚ) :
    pymax (List.replicate n c ++ [x]) = max c x := by
  obtain ⟨m, rfl⟩ := Nat.exists_eq_succ_of_ne_zero hn
  rw [List.replicate_succ, List.cons_append]
  simp only [pymax]
  rw [List.foldl_append, foldl_fixed max c c (max_self c) m]
  simp

/-- Sum of a constant list of rationals. -/
theorem sum_replicate_rat (n : ℕ) (c : ℚ) : (List.replicate n c).sum = n * c := by
  simp [List.sum_replicate, nsmul_eq_mul]

/-- `sma` of a long-enough constant list is the constant. -/
theorem sma_replicate (m k : ℕ) (hk : k ≠ 0) (hkm : k ≤ m) (c : ℚ) :
    sma (List.replicate m c) k = c := by
  unfold sma
  rw [List.length_replicate, if_neg (by omega)]
  unfold takeLast
  rw [List.length_replicate, List.drop_replicate, sum_replicate_rat,
    show m - (m - k) = k by omega]
  have : (k : ℚ) ≠ 0 := Nat.cast_ne_zero.mpr hk
  field_simp

/-- `getD` at the index right before a final appended element. -/
theorem getD_append_singleton {α : Type} (l : List α) (x d : α) (i : ℕ)
    (h : i = l.length) : (l ++ [x]).getD i d = x := by
  subst h
  simp [List.getD_eq_getElem?_getD, List.getElem?_concat_length]

/-- `getD` inside a constant list. -/
theorem getD_replicate {α : Type} (n i : ℕ) (h : i < n) (c d : α) :
    (List.replicate n c).getD i d = c := by
  simp [List.getD_eq_getElem?_getD, List.getElem?_replicate, h]

/-- The pairwise `zipWith f xs.tail xs` pattern (consecutive differences,
true ranges) over a constant list with one extra element at the end. -/
theorem zipWith_tail_concat {α β : Type} (f : α → α → β) (n : ℕ) (hn : n ≠ 0)
    (c u : α) :
    List.zipWith f (List.replicate n c ++ [u]).tail (List.replicate n c ++ [u]) =
      List.replicate (n - 1) (f c c) ++ [f u c] := by
  obtain ⟨m, rfl⟩ := Nat.exists_eq_succ_of_ne_zero hn
  rw [show List.replicate (m + 1) c ++ [u] =
    c :: (List.replicate m c ++ [u]) by simp [List.replicate_succ]]
  rw [List.tail_cons]
  rw [show c :: (List.replicate m c ++ [u]) =
    (List.replicate m c) ++ [c, u] by
      rw [← List.cons_append, ← List.replicate_succ, List.replicate_succ']
      simp]
  rw [List.zipWith_append _ _ _ _ _ (by simp)]
  simp

/-- Folding over a constant list plus one final element from a fixed point
computes one step on the final element. -/
theorem foldl_fixed_concat {α β : Type} (f : β → α → β) (a : β) (x y : α)
    (h : f a x = a) (n : ℕ) :
    (List.replicate n x ++ [y]).foldl f a = f a y := by
  rw [List.foldl_append, foldl_fixed f a x h n]
  rfl

/-! ## Claims C3/C2: concrete bar inputs -/

/-- The session-`T−1` perturbation of `cBar`: every field differs. -/
def pBar : Bar := ⟨101, 103, 99, 2000000⟩

/-- A bar carrying a 20-session-high spike without moving the close. -/
def spikeBar : Bar := ⟨100, 115, 99, 1000000⟩

/-- 366 identical sessions. -/
def barsBase : List Bar := List.replicate 366 cBar

/-- `barsBase` with only session `T−1` (index 364) changed. -/
def barsT1 : List Bar := (List.replicate 364 cBar ++ [pBar]) ++ [cBar]

/-- 366 sessions whose only feature is a high spike at session `T−1`,
shaped to pass every gate of the scoring engine. -/
def bars366 : List Bar := (List.replicate 364 cBar ++ [spikeBar]) ++ [cBar]

/-- Wilder RSI of a constant 366-session close series is the neutral 50. -/
theorem wilder_rsi_const : wilder_rsi (List.replicate 366 (100 : ℚ)) 14 = 50 := by
  unfold wilder_rsi
  simp only [List.length_replicate, List.dropLast_replicate, List.tail_replicate]
  rw [if_neg (by norm_num), if_neg (by norm_num)]
  rw [show (366 : ℕ) - 1 = 365 by norm_num, show (365 : ℕ) - 1 = 364 by norm_num]
  rw [zipWith_replicate_min, show min 364 365 = 364 by norm_num, sub_self]
  simp only [List.map_replicate, List.take_replicate, List.drop_replicate,
    sum_replicate_rat]
  rw [foldl_fixed _ _ _ (by norm_num)]
  rw [foldl_fixed _ _ _ (by norm_num)]
  norm_num

set_option maxHeartbeats 1600000 in
/-- Wilder RSI of the close series with session `T−1` bumped to 101 is 100
(the only nonzero delta is a gain). -/
theorem wilder_rsi_t1 :
    wilder_rsi ((List.replicate 364 (100 : ℚ) ++ [101]) ++ [100]) 14 = 100 := by
  unfold wilder_rsi
  rw [List.dropLast_concat]
  simp only [List.length_append, List.length_replicate, List.length_singleton]
  rw [if_neg (by norm_num), if_neg (by norm_num)]
  rw [zipWith_tail_concat _ _ (by norm_num)]
  norm_num [List.map_append, List.take_append_of_le_length,
    List.drop_append_of_le_length, List.take_replicate, List.drop_replicate,
    sum_replicate_rat, foldl_fixed_concat, foldl_fixed, List.length_replicate,
    List.map_replicate]

/-- True range of one constant session against itself. -/
theorem true_range_cBar : true_range cBar cBar = 2 := by
  unfold true_range cBar
  norm_num

/-- True range of the `T−1` perturbation against a constant session. -/
theorem true_range_pBar : true_range pBar cBar = 4 := by
  unfold true_range pBar cBar
  norm_num

/-- True range of the high-spike session against a constant session. -/
theorem true_range_spike : true_range spikeBar cBar = 16 := by
  unfold true_range spikeBar cBar
  norm_num

/-- Wilder ATR of 366 constant sessions with range 2. -/
theorem wilder_atr_base : wilder_atr barsBase 14 = 2 := by
  unfold wilder_atr barsBase
  simp only [List.length_replicate, List.dropLast_replicate, List.tail_replicate]
  rw [if_neg (by norm_num), if_neg (by norm_num)]
  rw [show (366 : ℕ) - 1 = 365 by norm_num, show (365 : ℕ) - 1 = 364 by norm_num]
  rw [zipWith_replicate_min, show min 364 365 = 364 by norm_num, true_range_cBar]
  rw [List.length_replicate, if_neg (by norm_num)]
  norm_num [List.take_replicate, List.drop_replicate, sum_replicate_rat,
    foldl_fixed]

set_option maxHeartbeats 1600000 in
/-- Wilder ATR of the bars with session `T−1` perturbed. -/
theorem wilder_atr_t1 : wilder_atr barsT1 14 = 15 / 7 := by
  unfold wilder_atr barsT1
  rw [List.dropLast_concat]
  simp only [List.length_append, List.length_replicate, List.length_singleton]
  rw [if_neg (by norm_num), if_neg (by norm_num)]
  rw [zipWith_tail_concat _ _ (by norm_num), true_range_cBar, true_range_pBar]
  rw [show (364 : ℕ) - 1 = 363 by norm_num]
  rw [if_neg (by simp)]
  norm_num [List.take_append_of_le_length, List.take_replicate,
    List.drop_append_of_le_length, List.drop_replicate, sum_replicate_rat,
    foldl_fixed_concat, foldl_fixed, List.length_replicate]

set_option maxHeartbeats 1600000 in
/-- Wilder ATR of the gate-passing spike bars. -/
theorem wilder_atr_366 : wilder_atr bars366 14 = 3 := by
  unfold wilder_atr bars366
  rw [List.dropLast_concat]
  simp only [List.length_append, List.length_replicate, List.length_singleton]
  rw [if_neg (by norm_num), if_neg (by norm_num)]
  rw [zipWith_tail_concat _ _ (by norm_num), true_range_cBar, true_range_spike]
  rw [show (364 : ℕ) - 1 = 363 by norm_num]
  rw [if_neg (by simp)]
  norm_num [List.take_append_of_le_length, List.take_replicate,
    List.drop_append_of_le_length, List.drop_replicate, sum_replicate_rat,
    foldl_fixed_concat, foldl_fixed, List.length_replicate]

/-- `dropLast` over a list ending in exactly two extra elements. -/
theorem dropLast_append_pair {α : Type} (l : List α) (x y : α) :
    (l ++ [x, y]).dropLast = l ++ [x] := by
  rw [show l ++ [x, y] = (l ++ [x]) ++ [y] by simp, List.dropLast_concat]

/-- `getD` at the second-to-last position of a list ending in two extra
elements. -/
theorem getD_append_pair_right {α : Type} (l : List α) (x y d : α) (i : ℕ)
    (h : i = l.length + 1) : (l ++ [x, y]).getD i d = y := by
  subst h
  rw [show l ++ [x, y] = (l ++ [x]) ++ [y] by simp]
  exact getD_append_singleton _ _ _ _ (by simp)

set_option maxHeartbeats 1600000 in
/-- Full indicator evaluation on the constant 366-session input. -/
theorem indicators_barsBase_eval :
    calculate_indicators_t_minus_1 barsBase =
      .ok ⟨100, 101, 1000000, 50, 2, 100, 1000000, 100000000, 100000000⟩ := by
  simp only [calculate_indicators_t_minus_1]
  rw [show barsBase.length = 366 by simp [barsBase], if_neg (by norm_num)]
  rw [show barsBase.map (·.c) = List.replicate 366 (100 : ℚ) by simp [barsBase, cBar],
    show barsBase.map (·.h) = List.replicate 366 (101 : ℚ) by simp [barsBase, cBar],
    show barsBase.map (·.v) = List.replicate 366 (1000000 : ℚ) by
      simp [barsBase, cBar],
    wilder_rsi_const, wilder_atr_base]
  unfold barsBase
  norm_num [sma, takeLast, List.dropLast_replicate, List.length_replicate,
    List.drop_replicate, List.take_replicate, sum_replicate_rat, pymax_replicate,
    getD_replicate, List.map_replicate, calculate_dollar_volume, cBar,
    Indicators.mk.injEq]

set_option maxHeartbeats 1600000 in
/-- Full indicator evaluation on the input whose session `T−1` differs in
every field: all five `T−1`-derived indicators move. -/
theorem indicators_barsT1_eval :
    calculate_indicators_t_minus_1 barsT1 =
      .ok ⟨5001/50, 103, 1100000, 100, 15/7, 100, 1000000, 100000000,
        110200000⟩ := by
  simp only [calculate_indicators_t_minus_1]
  rw [show barsT1.length = 366 by simp [barsT1], if_neg (by norm_num)]
  rw [show barsT1.map (·.c) = (List.replicate 364 (100 : ℚ) ++ [101]) ++ [100] by
      simp [barsT1, cBar, pBar],
    show barsT1.map (·.h) = (List.replicate 364 (101 : ℚ) ++ [103]) ++ [101] by
      simp [barsT1, cBar, pBar],
    show barsT1.map (·.v) =
        (List.replicate 364 (1000000 : ℚ) ++ [2000000]) ++ [1000000] by
      simp [barsT1, cBar, pBar],
    wilder_rsi_t1, wilder_atr_t1]
  rw [show barsT1 = List.replicate 364 cBar ++ [pBar, cBar] by
    simp [barsT1]]
  norm_num [sma, takeLast, List.dropLast_concat, List.length_append,
    List.length_replicate, List.drop_append_of_le_length, List.drop_replicate,
    List.take_append_of_le_length, List.take_replicate, sum_replicate_rat,
    List.sum_append, pymax_replicate_concat, getD_append_singleton,
    dropLast_append_pair, getD_append_pair_right, List.getElem_append_right,
    List.map_append, List.map_replicate, calculate_dollar_volume, cBar, pBar,
    Indicators.mk.injEq]

set_option maxHeartbeats 1600000 in
/-- Full indicator evaluation on the gate-passing spike input. -/
theorem indicators_bars366_eval :
    calculate_indicators_t_minus_1 bars366 =
      .ok ⟨100, 115, 1000000, 50, 3, 100, 1000000, 100000000, 100000000⟩ := by
  simp only [calculate_indicators_t_minus_1]
  rw [show bars366.length = 366 by simp [bars366], if_neg (by norm_num)]
  rw [show bars366.map (·.c) = List.replicate 366 (100 : ℚ) by
      rw [show bars366.map (·.c) = (List.replicate 364 (100 : ℚ) ++ [100]) ++ [100] by
        simp [bars366, cBar, spikeBar]]
      rw [← List.replicate_succ' 364, ← List.replicate_succ' 365],
    show bars366.map (·.h) = (List.replicate 364 (101 : ℚ) ++ [115]) ++ [101] by
      simp [bars366, cBar, spikeBar],
    show bars366.map (·.v) = List.replicate 366 (1000000 : ℚ) by
      rw [show bars366.map (·.v) =
        (List.replicate 364 (1000000 : ℚ) ++ [1000000]) ++ [1000000] by
          simp [bars366, cBar, spikeBar]]
      rw [← List.replicate_succ' 364, ← List.replicate_succ' 365],
    wilder_rsi_const, wilder_atr_366]
  rw [show bars366 = List.replicate 364 cBar ++ [spikeBar, cBar] by
    simp [bars366]]
  norm_num [sma, takeLast, List.dropLast_concat, List.dropLast_replicate,
    List.length_append, List.length_replicate, List.drop_append_of_le_length,
    List.drop_replicate, List.take_replicate, sum_replicate_rat, List.sum_append,
    pymax_replicate_concat, getD_replicate, dropLast_append_pair,
    getD_append_pair_right, List.getElem_append_right, List.map_append,
    List.map_replicate, calculate_dollar_volume, cBar, spikeBar,
    Indicators.mk.injEq]

/-- The five `T−1`-derived indicators the no-lookahead invariant protects:
SMA-50, 20-session high, 10-session volume average, Wilder RSI-14,
Wilder ATR-14. -/
def t1_five (ind : Indicators) : ℚ × ℚ × ℚ × ℚ × ℚ :=
  (ind.sma50_t_minus_1, ind.high20_t_minus_1, ind.vol_avg_10_t_minus_1,
    ind.rsi_raw, ind.atr_raw)

/-- Changing only the last bar keeps `wilder_atr` unchanged. -/
theorem wilder_atr_last_irrelevant (bs : List Bar) (b b' : Bar) :
    wilder_atr (bs ++ [b]) 14 = wilder_atr (bs ++ [b']) 14 := by
  unfold wilder_atr
  simp only [List.length_append, List.length_singleton, List.dropLast_concat]

/-- C3: all five `T−1`-derived indicators of
`calculate_indicators_t_minus_1` are unchanged when only session `T`'s
high/low/volume change (the close held fixed, though even it is not read);
and the concrete pair `barsBase` / `barsT1` — identical except at session
`T−1` (index 364) — moves every one of the five. -/
theorem no_lookahead_t_minus_1 :
    (∀ (bs : List Bar) (b b' : Bar), b.c = b'.c →
      (calculate_indicators_t_minus_1 (bs ++ [b])).map t1_five =
        (calculate_indicators_t_minus_1 (bs ++ [b'])).map t1_five) ∧
    barsT1 = barsBase.set 364 pBar ∧
    (calculate_indicators_t_minus_1 barsBase).map t1_five =
      .ok (100, 101, 1000000, 50, 2) ∧
    (calculate_indicators_t_minus_1 barsT1).map t1_five =
      .ok (5001/50, 103, 1100000, 100, 15/7) ∧
    ((100 : ℚ) ≠ 5001/50 ∧ (101 : ℚ) ≠ 103 ∧ (1000000 : ℚ) ≠ 1100000 ∧
      (50 : ℚ) ≠ 100 ∧ (2 : ℚ) ≠ 15/7) := by
  refine ⟨?_, ?_, ?_, ?_, ?_⟩
  · intro bs b b' hc
    unfold calculate_indicators_t_minus_1
    rw [show (bs ++ [b]).length = bs.length + 1 by simp,
      show (bs ++ [b']).length = bs.length + 1 by simp]
    by_cases hlt : bs.length + 1 < 366
    · rw [if_pos hlt, if_pos hlt]
    · rw [if_neg hlt, if_neg hlt]
      have hc5 : (bs ++ [b]).map (·.c) = (bs ++ [b']).map (·.c) := by simp [hc]
      have hh : ((bs ++ [b]).map (·.h)).dropLast =
          ((bs ++ [b']).map (·.h)).dropLast := by simp
      have hv : ((bs ++ [b]).map (·.v)).dropLast =
          ((bs ++ [b']).map (·.v)).dropLast := by simp
      simp only [Except.map, t1_five, Except.ok.injEq, Prod.mk.injEq]
      refine ⟨?_, ?_, ?_, ?_, ?_⟩
      · rw [hc5]
      · simp only [List.length_map, List.length_append, List.length_singleton]
        rw [if_pos (by omega : bs.length + 1 > 20),
          if_pos (by omega : bs.length + 1 > 20), hh]
      · simp only [List.length_map, List.length_append, List.length_singleton]
        rw [if_pos (by omega : bs.length + 1 ≥ 11),
          if_pos (by omega : bs.length + 1 ≥ 11), hv]
      · rw [hc5]
      · exact wilder_atr_last_irrelevant bs b b'
  · rw [barsT1, barsBase,
      show (366 : ℕ) = 365 + 1 by norm_num, List.replicate_succ',
      show (365 : ℕ) = 364 + 1 by norm_num, List.replicate_succ']
    simp [List.set_append, List.length_append, List.length_replicate]
  · rw [indicators_barsBase_eval]
    rfl
  · rw [indicators_barsT1_eval]
    rfl
  · norm_num

/-- C3 (witness): the invariance part applied to a concrete 366-bar input
whose final session's high/low/volume are replaced wholesale. -/
theorem no_lookahead_t_minus_1_witness :
    cBar.c = Bar.c ⟨100, 999, 1, 7⟩ ∧
    (calculate_indicators_t_minus_1 (List.replicate 365 cBar ++ [cBar])).map t1_five =
      (calculate_indicators_t_minus_1
        (List.replicate 365 cBar ++ [⟨100, 999, 1, 7⟩])).map t1_five :=
  ⟨rfl, no_lookahead_t_minus_1.1 (List.replicate 365 cBar) cBar ⟨100, 999, 1, 7⟩ rfl⟩

/-! ## Claim C2: determinism of `calculate_score_v2` -/

/-- A concrete model of `math.log` (its values never matter for the
properties proved here; the counterexample uses the same model on both
sides). -/
def lgZero : ℚ → ℚ := fun _ => 0

/-- A regime observation with extreme volatility (as `get_market_regime`
returns when VIX ≥ 35). -/
def regimeExtreme : Regime := ⟨"neutral", "extreme", 1/2, true, 1/2⟩

/-- A neutral/medium regime observation (also the fallback regime when
detection fails). -/
def regimeNeutral : Regime := ⟨"neutral", "medium", 1/2, true, 1/2⟩

/-- The same neutral/medium classification with different strength and
confidence readings. -/
def regimeNeutral2 : Regime := ⟨"neutral", "medium", 9/10, false, 1/10⟩

set_option maxHeartbeats 1600000 in
/-- On the gate-passing input `bars366`, an extreme-volatility regime
observation turns the score into the typed null `extreme_volatility`. -/
theorem scoreV2_bars366_extreme :
    calculate_score_v2 lgZero regimeExtreme bars366 =
      .ok (none, some "extreme_volatility") := by
  simp only [calculate_score_v2, MIN_BARS_REQUIRED]
  rw [show bars366.length = 366 by simp [bars366]]
  rw [if_neg (by norm_num)]
  simp only [calculate_raw_features]
  rw [indicators_bars366_eval]
  simp only [Except.map]
  norm_num [evaluate_gates, should_trade_in_regime, regimeExtreme]

/-- Whenever the observed regime's volatility classification is not
`extreme`, no result of `calculate_score_v2` carries the
`extreme_volatility` reason. -/
theorem scoreV2_reason_not_extreme (lg : ℚ → ℚ) (regime : Regime)
    (bars : List Bar) (h : regime.volatility_regime ≠ "extreme") (s : Option ℚ) :
    calculate_score_v2 lg regime bars ≠ .ok (s, some "extreme_volatility") := by
  intro hcon
  simp only [calculate_score_v2] at hcon
  split at hcon
  · exact absurd hcon (by simp)
  · split at hcon
    · exact absurd hcon (by simp)
    · split at hcon
      · exact absurd hcon (by simp)
      · split at hcon
        · simp only [Except.ok.injEq, Prod.mk.injEq] at hcon
          obtain ⟨-, hg⟩ := hcon
          simp only [evaluate_gates] at hg
          split_ifs at hg <;> simp_all
        · split at hcon
          · rename_i hcond
            obtain ⟨-, hst⟩ := hcond
            unfold should_trade_in_regime at hst
            split_ifs at hst <;> simp_all
          · split at hcon
            · simp only [Except.ok.injEq, Prod.mk.injEq] at hcon
              obtain ⟨-, hg⟩ := hcon
              unfold validate_dollar_volume at hg
              split_ifs at hg <;> simp_all
            · split at hcon
              · simp only [Except.ok.injEq, Prod.mk.injEq] at hcon
                obtain ⟨-, hg⟩ := hcon
                unfold validate_score_range at hg
                split_ifs at hg <;> simp_all
              · exact absurd hcon (by simp)

/-- C2 (counterexample): two invocations of `calculate_score_v2` on the
identical bar input `bars366` (and identical log model) return different
results when the wall-clock/network-dependent market-regime observation
differs — an extreme-volatility reading nulls the score with reason
`extreme_volatility`, a neutral reading never produces that reason.  The
scoring computation therefore consults state outside the bar input. -/
theorem score_v2_not_regime_independent :
    calculate_score_v2 lgZero regimeExtreme bars366 ≠
      calculate_score_v2 lgZero regimeNeutral bars366 := by
  intro h
  exact scoreV2_reason_not_extreme lgZero regimeNeutral bars366
    (by simp [regimeNeutral]) none (h.symm.trans scoreV2_bars366_extreme)

/-- C2 (amended): `calculate_score_v2` is deterministic in the bar input
*and* the market-regime observation: two invocations on identical bars
whose regime observations agree on the trend and volatility classification
(the only regime fields the computation consumes) return identical
results.  Unconditional determinism in the bars alone fails, because the
regime observation is wall-clock- and network-dependent. -/
theorem calculate_score_v2_regime_congruence :
    ∀ (lg : ℚ → ℚ) (bars : List Bar) (r1 r2 : Regime),
      r1.trend_regime = r2.trend_regime →
      r1.volatility_regime = r2.volatility_regime →
      calculate_score_v2 lg r1 bars = calculate_score_v2 lg r2 bars := by
  intro lg bars r1 r2 ht hv
  have hst : should_trade_in_regime r1 = should_trade_in_regime r2 := by
    unfold should_trade_in_regime
    rw [ht, hv]
  have hw : get_regime_adjusted_weights base_weights r1 =
      get_regime_adjusted_weights base_weights r2 := by
    unfold get_regime_adjusted_weights
    rw [ht, hv]
  unfold calculate_score_v2
  rw [hst, hw]

/-- C2 (witness): two regime observations with equal classifications but
different strength/confidence readings score the same input identically. -/
theorem calculate_score_v2_regime_congruence_witness :
    regimeNeutral.trend_regime = regimeNeutral2.trend_regime ∧
    regimeNeutral.volatility_regime = regimeNeutral2.volatility_regime ∧
    calculate_score_v2 lgZero regimeNeutral barsBase =
      calculate_score_v2 lgZero regimeNeutral2 barsBase :=
  ⟨rfl, rfl, calculate_score_v2_regime_congruence lgZero barsBase
    regimeNeutral regimeNeutral2 rfl rfl⟩

/-! ## Claims C1/C10: idempotent placement -/

/-- The skipped-summary entry `place_loop` records for a duplicate intent. -/
def skipOf (i : Intent) : SkipEntry :=
  ⟨i.symbol, "duplicate", i.client_order_id⟩

/-- When every intent's pre-placement lookup reports "do not place", the
placement loop skips each intent as a duplicate, touches nothing else in
the summary, and leaves the broker state unchanged. -/
theorem place_loop_all_skipped {σ : Type} (adapter : Adapter σ) (strategy : String) :
    ∀ (intents : List Intent) (summary : PlacementSummary) (s : σ),
      (∀ i ∈ intents,
        ensure_not_already_placed adapter s i.client_order_id = false) →
      place_loop adapter strategy intents summary s =
        ({ summary with skipped := summary.skipped ++ intents.map skipOf }, s) := by
  intro intents
  induction intents with
  | nil => intro summary s _; simp [place_loop]
  | cons i rest ih =>
    intro summary s h
    simp only [place_loop]
    rw [if_pos (by rw [h i (List.mem_cons_self i rest)]; simp)]
    rw [ih _ s (fun j hj => h j (List.mem_cons_of_mem i hj))]
    simp [skipOf]

/-- C10: if the executor's pre-placement lookup by client order id raises
for every intent, `place_orders` submits nothing — the broker state is
untouched — and reports every intent in `skipped` with reason `duplicate`
(not in `errors`). -/
theorem lookup_failure_suppresses_and_reports_duplicate :
    ∀ {σ : Type} (adapter : Adapter σ) (s : σ) (intents : List Intent)
      (run_id : String),
      (∀ i ∈ intents,
        adapter.get_order_by_client_id s i.client_order_id = .error ()) →
      place_orders adapter s intents run_id false =
        ({ run_id := run_id
           placed := []
           skipped := intents.map skipOf
           errors := []
           dry_run := false }, s) := by
  intro σ adapter s intents rid h
  unfold place_orders
  rw [if_neg (by simp)]
  rw [place_loop_all_skipped adapter _ intents _ s (fun i hi => by
    unfold ensure_not_already_placed
    rw [h i hi])]
  simp

/-- The always-failing broker adapter (every lookup raises). -/
def failAdapter : Adapter Unit :=
  { get_order_by_client_id := fun _ _ => .error ()
    supports_opg_bracket := false
    submit_bracket_order := fun _ _ => .error "network error"
    submit_opg_entry := fun _ _ => .error "network error" }

/-- C10 (witness): a single intent against the failing-lookup adapter lands
in `skipped` with reason `duplicate` and the state is unchanged. -/
theorem lookup_failure_suppresses_witness :
    (∀ i ∈ [capsIntentA],
      failAdapter.get_order_by_client_id () i.client_order_id = .error ()) ∧
    place_orders failAdapter () [capsIntentA] "r" false =
      ({ run_id := "r"
         placed := []
         skipped := [capsIntentA].map skipOf
         errors := []
         dry_run := false }, ()) :=
  ⟨fun _ _ => rfl,
    lookup_failure_suppresses_and_reports_duplicate failAdapter () [capsIntentA]
      "r" (fun _ _ => rfl)⟩

/-- The broker order record the in-memory adapter creates for an intent. -/
def memOrderOf (i : Intent) : OrderRec :=
  ⟨i.client_order_id ++ ":oid", i.client_order_id, i.symbol, "accepted"⟩

/-- The in-memory adapter's duplicate check is exactly a lookup by client
order id in the stored order list. -/
theorem ensure_mem_eq (s : MemBroker) (cid : String) :
    ensure_not_already_placed memAdapter s cid =
      (s.orders.find? (fun o => o.client_order_id = cid)).isNone := by
  cases hf : s.orders.find? (fun o => o.client_order_id = cid) with
  | none =>
    have h0 : memAdapter.get_order_by_client_id s cid = .ok none := by
      simp only [memAdapter]
      rw [hf]
    simp [ensure_not_already_placed, h0, hf]
  | some o =>
    have h0 : memAdapter.get_order_by_client_id s cid = .ok (some o) := by
      simp only [memAdapter]
      rw [hf]
    simp [ensure_not_already_placed, h0, hf]

/-- Against the in-memory broker every `place_with_fallback` call, whatever
the strategy, succeeds and appends exactly one order carrying the intent's
client order id and symbol. -/
theorem place_with_fallback_mem (s : MemBroker) (intent : Intent)
    (strategy : String) :
    ∃ pr : PlacementResult,
      place_with_fallback memAdapter s intent strategy =
        (pr, ⟨s.orders ++ [memOrderOf intent], s.writes + 1⟩) ∧
      pr.success = true := by
  unfold place_with_fallback memAdapter memOrderOf
  split_ifs with h1 h2 h3 <;> exact ⟨_, rfl, rfl⟩

/-- First run of the placement loop against a broker state holding none of
the intents' client order ids: the final broker state is the old one plus
exactly one order per intent (in order), with one write per intent. -/
theorem place_loop_fresh_state (strategy : String) :
    ∀ (intents : List Intent) (summary : PlacementSummary) (s : MemBroker),
      (intents.map (·.client_order_id)).Nodup →
      (∀ i ∈ intents,
        s.orders.find? (fun o => o.client_order_id = i.client_order_id) = none) →
      (place_loop memAdapter strategy intents summary s).2 =
        ⟨s.orders ++ intents.map memOrderOf, s.writes + intents.length⟩ := by
  intro intents
  induction intents with
  | nil => intro summary s _ _; simp [place_loop]
  | cons i rest ih =>
    intro summary s hnodup h
    rw [List.map_cons] at hnodup
    simp only [place_loop]
    have hens : ensure_not_already_placed memAdapter s i.client_order_id = true := by
      rw [ensure_mem_eq, h i (List.mem_cons_self i rest)]
      rfl
    rw [if_neg (by rw [hens]; simp)]
    obtain ⟨pr, heq, hsucc⟩ := place_with_fallback_mem s i strategy
    rw [heq]
    simp only [hsucc, if_pos]
    rw [ih _ _ hnodup.of_cons (fun j hj => by
      rw [List.find?_eq_none]
      intro o ho
      rcases List.mem_append.mp ho with ho | ho
      · have := List.find?_eq_none.mp (h j (List.mem_cons_of_mem i hj)) o ho
        simpa using this
      · rcases List.mem_singleton.mp ho with rfl
        have hni := (List.nodup_cons.mp hnodup).1
        have hne : j.client_order_id ≠ i.client_order_id := by
          intro hcon
          exact hni (hcon ▸ List.mem_map_of_mem (·.client_order_id) hj)
        simp [memOrderOf]
        exact fun hcon => hne hcon.symm)]
    simp [List.append_assoc]
    omega

/-- One filtered occurrence per key in a list whose keys are distinct. -/
theorem length_filter_eq_one_of_nodup {α : Type} (f : α → String) (l : List α)
    (sym : String) (h : (l.map f).Nodup) (hm : sym ∈ l.map f) :
    (l.filter (fun x => f x = sym)).length = 1 := by
  rw [← List.countP_eq_length_filter]
  have h1 : l.countP (fun x => decide (f x = sym)) =
      (l.map f).countP (fun s => decide (s = sym)) := by
    rw [List.countP_map]
    rfl
  have h2 : (l.map f).countP (fun s => decide (s = sym)) =
      (l.map f).count sym := by
    apply List.countP_congr
    intro a _
    simp [beq_iff_eq]
  rw [h1, h2]
  exact List.count_eq_one_of_mem h hm

/-- C1: running `place_orders` twice against the in-memory broker with the
same intents (one client order id per symbol) places exactly one broker
order per symbol; the second call reports every intent as
`skipped: duplicate` with empty `placed` and `errors`, performs zero
additional order-write calls, and leaves the broker state untouched. -/
theorem executor_idempotent_placement :
    ∀ (intents : List Intent) (run_id : String),
      (intents.map (·.client_order_id)).Nodup →
      (intents.map (·.symbol)).Nodup →
      (∀ sym ∈ intents.map (·.symbol),
        (((place_orders memAdapter
            (place_orders memAdapter ⟨[], 0⟩ intents run_id false).2
            intents run_id false).2.orders.filter
          (fun o => o.symbol = sym)).length) = 1) ∧
      (place_orders memAdapter
          (place_orders memAdapter ⟨[], 0⟩ intents run_id false).2
          intents run_id false).1 =
        { run_id := run_id
          placed := []
          skipped := intents.map skipOf
          errors := []
          dry_run := false } ∧
      (place_orders memAdapter
          (place_orders memAdapter ⟨[], 0⟩ intents run_id false).2
          intents run_id false).2 =
        (place_orders memAdapter ⟨[], 0⟩ intents run_id false).2 := by
  intro intents rid hids hsyms
  have hs1 : (place_orders memAdapter ⟨[], 0⟩ intents rid false).2 =
      ⟨intents.map memOrderOf, intents.length⟩ := by
    unfold place_orders
    rw [if_neg (by simp)]
    rw [place_loop_fresh_state _ intents _ ⟨[], 0⟩ hids (by simp)]
    simp
  have hdup : ∀ i ∈ intents, ensure_not_already_placed memAdapter
      ⟨intents.map memOrderOf, intents.length⟩ i.client_order_id = false := by
    intro i hi
    rw [ensure_mem_eq]
    cases hf : (intents.map memOrderOf).find?
        (fun o => o.client_order_id = i.client_order_id) with
    | none =>
      exfalso
      have := List.find?_eq_none.mp hf (memOrderOf i)
        (List.mem_map_of_mem memOrderOf hi)
      simp [memOrderOf] at this
    | some o => rfl
  have hs2 : place_orders memAdapter ⟨intents.map memOrderOf, intents.length⟩
      intents rid false =
      ({ run_id := rid
         placed := []
         skipped := intents.map skipOf
         errors := []
         dry_run := false }, ⟨intents.map memOrderOf, intents.length⟩) := by
    unfold place_orders
    rw [if_neg (by simp)]
    rw [place_loop_all_skipped memAdapter _ intents _ _ hdup]
    simp
  rw [hs1]
  refine ⟨?_, ?_, ?_⟩
  · intro sym hsym
    rw [hs2]
    have heq : ((intents.map memOrderOf).filter (fun o => o.symbol = sym)) =
        ((intents.filter (fun i => i.symbol = sym)).map memOrderOf) := by
      rw [List.filter_map]
      rfl
    simp only [heq, List.length_map]
    exact length_filter_eq_one_of_nodup (·.symbol) intents sym hsyms hsym
  · rw [hs2]
  · rw [hs2]

/-- C1 (witness): the idempotency statement at a concrete two-intent batch
with distinct symbols and client order ids. -/
theorem executor_idempotent_placement_witness :
    ([capsIntentA, capsIntentB].map (·.client_order_id)).Nodup ∧
    ([capsIntentA, capsIntentB].map (·.symbol)).Nodup ∧
    ((∀ sym ∈ [capsIntentA, capsIntentB].map (·.symbol),
        (((place_orders memAdapter
            (place_orders memAdapter ⟨[], 0⟩ [capsIntentA, capsIntentB] "r" false).2
            [capsIntentA, capsIntentB] "r" false).2.orders.filter
          (fun o => o.symbol = sym)).length) = 1) ∧
      (place_orders memAdapter
          (place_orders memAdapter ⟨[], 0⟩ [capsIntentA, capsIntentB] "r" false).2
          [capsIntentA, capsIntentB] "r" false).1 =
        { run_id := "r"
          placed := []
          skipped := [capsIntentA, capsIntentB].map skipOf
          errors := []
          dry_run := false } ∧
      (place_orders memAdapter
          (place_orders memAdapter ⟨[], 0⟩ [capsIntentA, capsIntentB] "r" false).2
          [capsIntentA, capsIntentB] "r" false).2 =
        (place_orders memAdapter ⟨[], 0⟩ [capsIntentA, capsIntentB] "r" false).2) :=
  ⟨by simp [capsIntentA, capsIntentB], by simp [capsIntentA, capsIntentB],
    executor_idempotent_placement [capsIntentA, capsIntentB] "r"
      (by simp [capsIntentA, capsIntentB]) (by simp [capsIntentA, capsIntentB])⟩

/-! ## Claim C9: OCO replay of persisted intents -/

/-- The OCO trace of `morning_reconcile`'s pending-OCO loop is the
filter-map of the per-entry attempt over the manifest. -/
theorem morning_oco_pass_trace (adapter : RecBroker)
    (intents_file : Option (List Intent)) :
    ∀ (placed_list : List ManifestEntry) (summary : MorningSummary),
      (morning_oco_pass adapter intents_file placed_list summary).2 =
        placed_list.filterMap (morning_oco_attempt adapter intents_file) := by
  intro placed_list
  induction placed_list with
  | nil => intro summary; simp [morning_oco_pass]
  | cons placed rest ih =>
    intro summary
    simp only [morning_oco_pass, List.filterMap_cons]
    cases ha : morning_oco_attempt adapter intents_file placed with
    | some req => simp [ih]
    | none => simp [ih]

/-- The OCO trace of `reconcile_with_manifest`'s loop is the filter-map of
the per-entry attempt over the manifest. -/
theorem manifest_pass_trace (adapter : RecBroker) (intents : List Intent) :
    ∀ (placed_list : List ManifestEntry) (summary : ManifestSummary),
      (manifest_pass adapter intents placed_list summary).2 =
        placed_list.filterMap (manifest_oco_attempt adapter intents) := by
  intro placed_list
  induction placed_list with
  | nil => intro summary; simp [manifest_pass]
  | cons placed rest ih =>
    intro summary
    simp only [manifest_pass, List.filterMap_cons]
    by_cases hf : (adapter.check_order_fill placed.order_id).1 = true
    · by_cases hp : placed.pending_oco = true
      · cases ha : manifest_oco_attempt adapter intents placed with
        | some req =>
          rw [if_pos hf, if_pos hp]
          simp [ih]
        | none =>
          rw [if_pos hf, if_pos hp]
          simp [ih]
      · have ha : manifest_oco_attempt adapter intents placed = none := by
          simp [manifest_oco_attempt, hp]
        rw [if_pos hf, if_neg hp, ha]
        simp [ih]
    · have ha : manifest_oco_attempt adapter intents placed = none := by
        simp [manifest_oco_attempt, hf]
      rw [if_neg hf, ha]
      by_cases hq : qty_truthy (adapter.check_order_fill placed.order_id).2.2 = true ∧
          0 < (adapter.check_order_fill placed.order_id).2.2.getD 0
      · rw [if_pos hq]
        simp [ih]
      · rw [if_neg hq]
        cases hg : adapter.get_order placed.order_id with
        | ok status =>
          by_cases hs : status = "canceled"
          · simp [hs, ih]
          · simp [hs, ih]
        | error e => simp [ih]

/-- Solving `morning_oco_attempt … = some req` for the conditions and the
exact request. -/
theorem morning_oco_attempt_eq_some (adapter : RecBroker)
    (intents_file : Option (List Intent)) (placed : ManifestEntry)
    (req : OCOReq) :
    morning_oco_attempt adapter intents_file placed = some req ↔
      placed.pending_oco = true ∧
      (adapter.check_order_fill placed.order_id).1 = true ∧
      qty_truthy (adapter.check_order_fill placed.order_id).2.2 = true ∧
      ∃ intent,
        (intents_file.getD []).find? (fun i => i.symbol = placed.symbol) =
          some intent ∧
        req = ⟨placed.symbol,
               (adapter.check_order_fill placed.order_id).2.2.getD 0,
               intent.bracket.stop_loss, intent.bracket.take_profit,
               placed.order_id⟩ := by
  simp only [morning_oco_attempt]
  by_cases hp : placed.pending_oco = true
  · rw [if_pos hp]
    by_cases hfq : (adapter.check_order_fill placed.order_id).1 = true ∧
        qty_truthy (adapter.check_order_fill placed.order_id).2.2 = true
    · rw [if_pos hfq]
      cases intents_file with
      | none => simp [hp, hfq.1, hfq.2]
      | some l =>
        cases hfind : l.find? (fun i => i.symbol = placed.symbol) with
        | none => simp [hp, hfq.1, hfq.2, hfind]
        | some intent =>
          simp only [Option.getD_some, hfind, hp, hfq.1, hfq.2, true_and,
            Option.some.injEq]
          constructor
          · rintro rfl
            exact ⟨intent, rfl, rfl⟩
          · rintro ⟨intent', hi, rfl⟩
            cases hi
            rfl
    · rw [if_neg hfq]
      refine iff_of_false (by simp) ?_
      rintro ⟨-, hf2, hq2, -⟩
      exact hfq ⟨hf2, hq2⟩
  · rw [if_neg hp]
    simp [hp]

/-- Solving `manifest_oco_attempt … = some req` for the conditions and the
exact request. -/
theorem manifest_oco_attempt_eq_some (adapter : RecBroker)
    (intents : List Intent) (placed : ManifestEntry) (req : OCOReq) :
    manifest_oco_attempt adapter intents placed = some req ↔
      (adapter.check_order_fill placed.order_id).1 = true ∧
      placed.pending_oco = true ∧
      ∃ intent,
        intent_by_symbol intents placed.symbol = some intent ∧
        req = ⟨placed.symbol,
               (adapter.check_order_fill placed.order_id).2.2.getD 0,
               intent.bracket.stop_loss, intent.bracket.take_profit,
               placed.order_id⟩ := by
  simp only [manifest_oco_attempt]
  by_cases hf : (adapter.check_order_fill placed.order_id).1 = true
  · rw [if_pos hf]
    by_cases hp : placed.pending_oco = true
    · rw [if_pos hp]
      cases hfind : intent_by_symbol intents placed.symbol with
      | none => simp [hf, hp, hfind]
      | some intent =>
        simp only [hf, hp, hfind, true_and, Option.some.injEq]
        constructor
        · rintro rfl
          exact ⟨intent, rfl, rfl⟩
        · rintro ⟨intent', hi, rfl⟩
          cases hi
          rfl
    · rw [if_neg hp]
      simp [hp]
  · rw [if_neg hf]
    simp [hf]

/-- C9: every one-cancels-other stop/target pair submitted by
reconciliation — in `morning_reconcile` as well as in
`reconcile_with_manifest` — belongs to a manifest entry flagged
`pending_oco` whose entry order the broker reports as filled, is sized to
the broker-reported actual filled quantity (not the intent's requested
quantity), takes its stop and target prices unchanged from the persisted
intent's bracket for that symbol, and is attached to the placed entry
order; conversely, every such filled `pending_oco` entry with a persisted
intent (for `morning_reconcile` additionally: a truthy filled quantity)
gets exactly that OCO submission. -/
theorem reconciliation_oco_replays_intent :
    ∀ (adapter : RecBroker) (run_id : String) (as_of : ℚ)
      (placement : Option (List ManifestEntry))
      (intents_file : Option (List Intent))
      (manifest : Option (List ManifestEntry)) (intent_list : List Intent)
      (req : OCOReq),
      (req ∈ (morning_reconcile adapter run_id as_of placement intents_file).2 ↔
        ∃ placed ∈ placement.getD [],
          placed.pending_oco = true ∧
          (adapter.check_order_fill placed.order_id).1 = true ∧
          qty_truthy (adapter.check_order_fill placed.order_id).2.2 = true ∧
          ∃ intent,
            (intents_file.getD []).find? (fun i => i.symbol = placed.symbol) =
              some intent ∧
            req = ⟨placed.symbol,
                   (adapter.check_order_fill placed.order_id).2.2.getD 0,
                   intent.bracket.stop_loss, intent.bracket.take_profit,
                   placed.order_id⟩) ∧
      (req ∈ (reconcile_with_manifest adapter manifest (some intent_list)).2 ↔
        ∃ placed ∈ manifest.getD [],
          (adapter.check_order_fill placed.order_id).1 = true ∧
          placed.pending_oco = true ∧
          ∃ intent,
            intent_by_symbol intent_list placed.symbol = some intent ∧
            req = ⟨placed.symbol,
                   (adapter.check_order_fill placed.order_id).2.2.getD 0,
                   intent.bracket.stop_loss, intent.bracket.take_profit,
                   placed.order_id⟩) := by
  intro adapter rid as_of placement intents_file manifest intent_list req
  constructor
  · have htrace : (morning_reconcile adapter rid as_of placement intents_file).2 =
        (placement.getD []).filterMap (morning_oco_attempt adapter intents_file) := by
      unfold morning_reconcile
      cases placement with
      | none => simp
      | some placed_list =>
        by_cases h0 : placed_list = []
        · subst h0; simp
        · simp only [Option.getD_some]
          rw [if_neg h0]
          exact morning_oco_pass_trace adapter intents_file placed_list _
    rw [htrace, List.mem_filterMap]
    constructor
    · rintro ⟨placed, hmem, ha⟩
      exact ⟨placed, hmem, (morning_oco_attempt_eq_some adapter intents_file
        placed req).mp ha⟩
    · rintro ⟨placed, hmem, hcond⟩
      exact ⟨placed, hmem, (morning_oco_attempt_eq_some adapter intents_file
        placed req).mpr hcond⟩
  · have htrace : (reconcile_with_manifest adapter manifest (some intent_list)).2 =
        (manifest.getD []).filterMap (manifest_oco_attempt adapter intent_list) := by
      unfold reconcile_with_manifest
      cases manifest with
      | none => simp
      | some placed_list =>
        exact manifest_pass_trace adapter intent_list placed_list _
    rw [htrace, List.mem_filterMap]
    constructor
    · rintro ⟨placed, hmem, ha⟩
      exact ⟨placed, hmem, (manifest_oco_attempt_eq_some adapter intent_list
        placed req).mp ha⟩
    · rintro ⟨placed, hmem, hcond⟩
      exact ⟨placed, hmem, (manifest_oco_attempt_eq_some adapter intent_list
        placed req).mpr hcond⟩

end SwingTrading
